import Mathlib

/-!
Verification of the Simumatik driver-manager core (`driver_manager.py`).

The development shallowly embeds the `DriverManager`, `DriverStructure` and
`VariableStructure` classes.  Python dictionaries (which preserve insertion
order) are modelled as association lists together with `lookup` (first
occurrence) and `setKey` (replace in place when the key is present, append
otherwise), which is exactly the observable behaviour of `d[k]` and
`d[k] = v` on a dict whose keys are unique.  Code that can raise an
uncaught Python exception (`None.items()`, `k in None`, `d[missing]`)
returns `none`.  The manager's sends to worker pipes are recorded in a
`wsent` event trace and `process.join()` calls in a `joined` trace; both
are write-only histories that do not influence any branch of the embedded
code.  Values carried by variables and parameters are a type `V` with
decidable equality; the source only ever compares them with `==`/`!=`.
-/

namespace DriverMgr

/-- Dict lookup: first binding of the key, as in a Python dict with unique
keys (`d.get(k)` / `d[k]`). -/
def lookup {α : Type} (l : List (String × α)) (k : String) : Option α :=
  match l with
  | [] => none
  | (k', v) :: rest => if k' = k then some v else lookup rest k

/-- Dict store `d[k] = v`: replaces the first binding of `k` in place,
appends a new binding at the end when `k` is absent (insertion order). -/
def setKey {α : Type} (l : List (String × α)) (k : String) (v : α) : List (String × α) :=
  match l with
  | [] => [(k, v)]
  | (k', v') :: rest => if k' = k then (k, v) :: rest else (k', v') :: setKey rest k v

/-- Dict `d.update(other)`: fold `setKey` over the entries of `other` in
order. -/
def updMerge {α : Type} (l : List (String × α)) (other : List (String × α)) :
    List (String × α) :=
  other.foldl (fun acc p => setKey acc p.1 p.2) l

/-- Modelled from the spec: the worker status enum (`DriverStatus` lives in
`drivers/driver.py`, which is not part of the provided sources; §4.7 fixes
its members `SETUP`, `RUNNING`, `ERROR`, `EXITED`). -/
inductive DriverStatus where
  | SETUP
  | RUNNING
  | ERROR
  | EXITED
deriving DecidableEq

/-- A variable's declared setup data (`var_data`).  The manager only ever
reads its `handle` key (`var_data.get('handle', None)`), the rest is opaque
and forwarded verbatim to the worker. -/
structure VarData (V : Type) where
  handle : Option String
  extra : List (String × V)
deriving DecidableEq

/-- Modelled from the spec: the manager→worker / worker→manager action tags
(`DriverActions` lives in `drivers/driver.py`, not in the provided sources;
§6.2 fixes the message set).  This type is the manager→worker direction. -/
inductive DriverAction (V : Type) where
  | ADD_VARIABLES (vars : List (String × VarData V))
  | UPDATE (vals : List (String × V))
  | EXIT
deriving DecidableEq

/-- Modelled from the spec: worker→manager messages (§6.2); `other` stands
for any unrecognised tag, which the manager logs and drops. -/
inductive WorkerMsg (V : Type) where
  | STATUS (st : DriverStatus)
  | INFO (text : String)
  | VAR_INFO (msg : String) (vid : String)
  | UPDATE (vals : List (String × V))
  | other (tag : String)
deriving DecidableEq

/-- `VariableStructure.__init__`. -/
structure VariableStructure (V : Type) where
  handlers : List String
  parameters : VarData V
  value : Option V
  info : String
  write_count : Nat
  read_count : Nat
deriving DecidableEq

/-- `VariableStructure.add_handle`. -/
def varAddHandle {V : Type} (vs : VariableStructure V) (h : String) : VariableStructure V :=
  { vs with handlers := vs.handlers ++ [h] }

/-- A driver record (`DriverStructure`).  `status` is `none` for the
initial Python value `""` and `some st` once a worker `STATUS` was applied;
`pipe` models the truthiness of `self.pipe`; `updates` is the pending
outbound batch. -/
structure DriverStructure (V : Type) where
  class_name : String
  name : String
  handlers : List String
  parameters : Option (List (String × V))
  vars : List (String × VariableStructure V)
  status : Option DriverStatus
  info : String
  info_log : List String
  latency : String
  pipe : Bool
  updates : List (String × V)
deriving DecidableEq

/-- `DriverStructure.add_handle`. -/
def add_handle {V : Type} (d : DriverStructure V) (h : String) : DriverStructure V :=
  { d with handlers := d.handlers ++ [h] }

/-- The `SETUP` part of a driver setup request; `parameters` is `none`
when the `"parameters"` key is absent (`setup_data.get("parameters", None)`),
`variables` is `none` when the `"variables"` key is absent. -/
structure SetupData (V : Type) where
  parameters : Option (List (String × V))
  vars : Option (List (String × VarData V))
deriving DecidableEq

/-- The `{}` default used by `driver_data.get("SETUP", {})`. -/
def SetupData.empty (V : Type) : SetupData V := ⟨none, none⟩

/-- One driver setup request (`driver_data`): `DRIVER` is `none` when the
key is absent (read with default `"None"`), likewise `SETUP`. -/
structure DriverData (V : Type) where
  DRIVER : Option String
  SETUP : Option (SetupData V)
deriving DecidableEq

/-- `driver_data.get("DRIVER", "None")`. -/
def ddClass {V : Type} (dd : DriverData V) : String := dd.DRIVER.getD "None"

/-- `driver_data.get("SETUP", {})`. -/
def ddSetup {V : Type} (dd : DriverData V) : SetupData V := dd.SETUP.getD (SetupData.empty V)

/-- `setup_data.get("variables", {})`. -/
def ddVariables {V : Type} (dd : DriverData V) : List (String × VarData V) :=
  (ddSetup dd).vars.getD []

variable {V : Type} [DecidableEq V]

/-- The parameter loop of `DriverStructure.is_compatible`: for every
`(key, value)` of the request, if `key` is present in the driver's
parameters, the stored value must equal `value`; other keys are ignored. -/
def checkParams (dps ps : List (String × V)) : Bool :=
  ps.all fun kv =>
    match lookup dps kv.1 with
    | none => true
    | some w => decide (w = kv.2)

/-- `DriverStructure.is_compatible`.  Returns `none` where the Python code
raises: `parameters.items()` with `parameters = None`, or `key in
self.parameters` with `self.parameters = None` on a non-empty request. -/
def is_compatible (d : DriverStructure V) (dd : DriverData V) : Option Bool :=
  if d.class_name = ddClass dd then
    match (ddSetup dd).parameters with
    | none => none
    | some ps =>
      match d.parameters with
      | none => if ps.isEmpty then some true else none
      | some dps => some (checkParams dps ps)
  else some false

/-- `DriverStructure.add_driver_variables`: returns the updated driver, the
handle-index delta `res` (in iteration order) and `var_setup_data`, the
newly created variables forwarded to the worker. -/
def add_driver_variables (d : DriverStructure V) :
    List (String × VarData V) →
    DriverStructure V × List (String × String × String) × List (String × VarData V)
  | [] => (d, [], [])
  | (vid, vd) :: rest =>
    match vd.handle with
    | none => add_driver_variables d rest
    | some h =>
      match lookup d.vars vid with
      | none =>
        let nvs : VariableStructure V :=
          { handlers := [h], parameters := vd, value := none, info := ""
            write_count := 0, read_count := 0 }
        let t := add_driver_variables { d with vars := setKey d.vars vid nvs } rest
        (t.1, (h, vid, d.name) :: t.2.1, (vid, vd) :: t.2.2)
      | some vs =>
        let t := add_driver_variables
          { d with vars := setKey d.vars vid (varAddHandle vs h) } rest
        (t.1, (h, vid, d.name) :: t.2.1, t.2.2)

/-- `DriverManager.find_compatible_driver`: linear scan over the live
drivers in insertion order; `none` when `is_compatible` raises, `some none`
when no driver is compatible, `some (some (name, d))` for the first
compatible driver. -/
def find_compatible_driver (dd : DriverData V) :
    List (String × DriverStructure V) → Option (Option (String × DriverStructure V))
  | [] => some none
  | (n, d) :: rest =>
    match is_compatible d dd with
    | none => none
    | some true => some (some (n, d))
    | some false => find_compatible_driver dd rest

/-- The registered driver classes (`registered_drivers` in
`drivers/__init__.py`, non-Windows platform branch); only key membership is
observable to the manager core. -/
def registered_driver_names : List String :=
  ["allenbradley_logix", "cprog_cri", "development", "enip_generic_device",
   "hokuyo_uam", "igus_irc", "kuka_varproxy", "micro800_http",
   "modbustcp_master", "mqtt_client", "omron_fins", "opcua_client",
   "rosbridge", "s7protocol", "simit", "simulink_udp", "sqlite3_conn",
   "twincat_ads", "udp_driver", "ur_driver"]

/-- The name assigned to the `n`-th started driver
(`f"DRIVER_&#x7b;self._driver_counter&#x7d;"`). -/
def mkDriverName (k : Nat) : String := "DRIVER_" ++ Nat.repr k

/-- Frame tags a host command is echoed back with. -/
inductive HostTag where
  | SETUP_DRIVERS
  | CLEAN
  | UPDATES
  | other (tag : String)
deriving DecidableEq

/-- Host→manager commands (`DriverMgrCommands` carried over the host
channel); `other` covers the tags hitting the not-implemented branch. -/
inductive HostCmd (V : Type) where
  | SETUP_DRIVERS (data : List (String × DriverData V))
  | CLEAN
  | UPDATES (data : List (String × V))
  | other (tag : String)
deriving DecidableEq

/-- The tag a command's reply frame carries. -/
def tagOf : HostCmd V → HostTag
  | .SETUP_DRIVERS _ => .SETUP_DRIVERS
  | .CLEAN => .CLEAN
  | .UPDATES _ => .UPDATES
  | .other t => .other t

/-- A reply payload pushed back to the host. -/
inductive HostReply where
  | str (s : String)
  | results (m : List (String × String))
deriving DecidableEq

/-- Frames the manager emits on the host channel: command replies and the
asynchronous update frames. -/
inductive OutFrame (V : Type) where
  | reply (tag : HostTag) (r : HostReply)
  | STATUS (m : List (String × Option DriverStatus))
  | INFO (m : List (String × String))
  | VAR_INFO (m : List (String × String))
  | UPDATES (m : List (String × V))
  | STATS (m : List (String × Nat))
deriving DecidableEq

/-- The manager state (`DriverManager.__init__`).  `wsent` is the history
of messages sent on worker pipes (as pairs of driver name and action) and
`joined` the history of `process.join()` calls; both are ghost traces. -/
structure DMState (V : Type) where
  drivers : List (String × DriverStructure V)
  driver_counter : Nat
  handles : List (String × String × String)
  running : Bool
  stats_updates : List (String × Nat)
  status_updates : List (String × Option DriverStatus)
  info_updates : List (String × String)
  var_info_updates : List (String × String)
  value_updates : List (String × V)
  last_status_record : Nat
  wsent : List (String × DriverAction V)
  joined : List String
deriving DecidableEq

/-- The freshly constructed manager. -/
def initState (V : Type) : DMState V :=
  { drivers := [], driver_counter := 0, handles := [], running := true
    stats_updates := [], status_updates := [], info_updates := []
    var_info_updates := [], value_updates := [], last_status_record := 0
    wsent := [], joined := [] }

/-- `DriverManager.start_driver`: `none` when the class is not registered
(the Python function returns `None`), otherwise the new driver record.  The
counter increment happens in the caller via the returned record's name. -/
def start_driver (counter : Nat) (h : String) (dd : DriverData V) :
    Option (DriverStructure V) :=
  if ddClass dd ∈ registered_driver_names then
    some { class_name := ddClass dd, name := mkDriverName counter
           handlers := [h], parameters := (ddSetup dd).parameters
           vars := [], status := none, info := "", info_log := []
           latency := "", pipe := true, updates := [] }
  else none

/-- One iteration of the `setup_drivers` loop body, for a single
`(driver_handle, driver_data)` entry. -/
def setup_one (s : DMState V) (h : String) (dd : DriverData V) :
    Option (DMState V × String) :=
  match find_compatible_driver dd s.drivers with
  | none => none
  | some (some (n, d)) =>
    let t := add_driver_variables (add_handle d h) (ddVariables dd)
    let msgs : List (String × DriverAction V) :=
      if t.1.pipe && !t.2.2.isEmpty then [(n, DriverAction.ADD_VARIABLES t.2.2)] else []
    some ({ s with drivers := setKey s.drivers n t.1
                   status_updates := setKey s.status_updates h d.status
                   handles := updMerge s.handles t.2.1
                   wsent := s.wsent ++ msgs }, "SUCCESS")
  | some none =>
    match start_driver (s.driver_counter + 1) h dd with
    | none => some (s, "FAILED")
    | some nd =>
      let t := add_driver_variables nd (ddVariables dd)
      let msgs : List (String × DriverAction V) :=
        if t.1.pipe && !t.2.2.isEmpty then [(nd.name, DriverAction.ADD_VARIABLES t.2.2)] else []
      some ({ s with driver_counter := s.driver_counter + 1
                     drivers := setKey s.drivers nd.name t.1
                     handles := updMerge s.handles t.2.1
                     wsent := s.wsent ++ msgs }, "SUCCESS")

/-- `DriverManager.setup_drivers`: processes the request entries in order,
collecting the per-handle reply map. -/
def setup_drivers (s : DMState V) :
    List (String × DriverData V) → Option (DMState V × List (String × String))
  | [] => some (s, [])
  | (h, dd) :: rest =>
    match setup_one s h dd with
    | none => none
    | some (s', r) =>
      match setup_drivers s' rest with
      | none => none
      | some (s'', rs) => some (s'', (h, r) :: rs)

/-- `DriverManager.clean_drivers`: send `EXIT` to every driver in insertion
order, then `popitem` (last-in-first-out) and join each worker. -/
def clean_drivers (s : DMState V) : DMState V :=
  { s with drivers := []
           wsent := s.wsent ++ s.drivers.map (fun p => (p.1, DriverAction.EXIT))
           joined := s.joined ++ (s.drivers.map Prod.fst).reverse }

/-- One entry of the host `UPDATES` loop.  `none` models the `KeyError`
raised by `self._drivers[driver_name]` or `...vars[var_id]` on a stale
index entry; an unknown handle is logged and skipped. -/
def host_update_one (s : DMState V) (h : String) (v : V) : Option (DMState V) :=
  match lookup s.handles h with
  | none => some s
  | some (vid, dn) =>
    if dn = "" then some s
    else
      match lookup s.drivers dn with
      | none => none
      | some d =>
        if d.status = some DriverStatus.RUNNING then
          match lookup d.vars vid with
          | none => none
          | some vs =>
            if vs.value ≠ some v then
              let vs' := { vs with write_count := vs.write_count + 1, value := some v }
              let d' := { d with updates := setKey d.updates vid v
                                 vars := setKey d.vars vid vs' }
              some { s with drivers := setKey s.drivers dn d' }
            else some s
        else some s

/-- The host `UPDATES` entry loop over the whole batch. -/
def host_updates_batch (s : DMState V) : List (String × V) → Option (DMState V)
  | [] => some s
  | (h, v) :: rest =>
    match host_update_one s h v with
    | none => none
    | some s' => host_updates_batch s' rest

/-- The messages the flush loop sends: per driver in insertion order, one
`UPDATE` carrying its pending batch when that batch is non-empty. -/
def pendingMsgs (l : List (String × DriverStructure V)) : List (String × DriverAction V) :=
  l.filterMap fun p =>
    if p.2.updates.isEmpty then none else some (p.1, DriverAction.UPDATE p.2.updates)

/-- The per-driver effect of the flush loop: a non-empty pending batch is
reset to empty (`driver_struct.updates = {}`), an empty one is left as
is. -/
def clearPending (d : DriverStructure V) : DriverStructure V :=
  if d.updates.isEmpty then d else { d with updates := [] }

/-- The flush loop after a host `UPDATES` batch: every driver with a
non-empty pending batch gets one `UPDATE` message and its batch cleared. -/
def flush_updates (s : DMState V) : DMState V :=
  { s with drivers := s.drivers.map fun p => (p.1, clearPending p.2)
           wsent := s.wsent ++ pendingMsgs s.drivers }

/-- `DriverManager.send_command`: `none` where the Python handler raises an
uncaught exception. -/
def send_command (s : DMState V) (c : HostCmd V) :
    Option (DMState V × Option HostReply) :=
  match c with
  | .CLEAN => some ({ clean_drivers s with running := false }, some (.str "SUCCESS"))
  | .SETUP_DRIVERS data =>
    match setup_drivers s data with
    | none => none
    | some (s', res) => some (s', some (.results res))
  | .UPDATES data =>
    match host_updates_batch s data with
    | none => none
    | some s' => some (flush_updates s', none)
  | .other _ => some (s, none)

/-- The substring test `"Latency" in data`. -/
def hasLatency (t : String) : Bool := (t.splitOn "Latency").length ≠ 1

/-- One entry of a worker `UPDATE` payload applied to a driver and the
coalescing maps. -/
def apply_update_entry (d : DriverStructure V) (s : DMState V) (vid : String) (v : V) :
    DriverStructure V × DMState V :=
  match lookup d.vars vid with
  | none => (d, s)
  | some vs =>
    if vs.value ≠ some v then
      let vs' := { vs with value := some v, read_count := vs.read_count + 1 }
      ({ d with vars := setKey d.vars vid vs' },
       { s with value_updates :=
           vs.handlers.foldl (fun m h => setKey m h v) s.value_updates })
    else (d, s)

/-- One worker message applied to its driver and the coalescing maps
(the body of the `run_once` pipe loop). -/
def apply_worker_msg (d : DriverStructure V) (s : DMState V) :
    WorkerMsg V → DriverStructure V × DMState V
  | .STATUS st =>
    if d.status ≠ some st then
      ({ d with status := some st },
       { s with status_updates :=
           d.handlers.foldl (fun m h => setKey m h (some st)) s.status_updates })
    else (d, s)
  | .INFO text =>
    if hasLatency text then ({ d with latency := text }, s)
    else
      let l := d.info_log ++ [text]
      let l' := if l.length > 5 then l.drop (l.length - 5) else l
      ({ d with info_log := l', info := text },
       { s with info_updates :=
           d.handlers.foldl (fun m h => setKey m h text) s.info_updates })
  | .VAR_INFO msg vid =>
    match lookup d.vars vid with
    | none => (d, s)
    | some vs =>
      if vs.info ≠ msg then
        ({ d with vars := setKey d.vars vid { vs with info := msg } },
         { s with var_info_updates :=
             vs.handlers.foldl (fun m h => setKey m h msg) s.var_info_updates })
      else (d, s)
  | .UPDATE vals =>
    vals.foldl (fun p q => apply_update_entry p.1 p.2 q.1 q.2) (d, s)
  | .other _ => (d, s)

/-- Drain a driver's pipe: fold the received messages in order. -/
def drain_driver (d : DriverStructure V) (s : DMState V) :
    List (WorkerMsg V) → DriverStructure V × DMState V
  | [] => (d, s)
  | m :: rest =>
    drain_driver (apply_worker_msg d s m).1 (apply_worker_msg d s m).2 rest

/-- The outer `run_once` loop: every driver (in insertion order) drains up
to `cap` messages from its pipe. -/
def drain_all (inbox : List (String × List (WorkerMsg V))) (cap : Nat) :
    List (String × DriverStructure V) → DMState V →
    List (String × DriverStructure V) × DMState V
  | [], s => ([], s)
  | (n, d) :: rest, s =>
    let t := drain_driver d s (((lookup inbox n).getD []).take cap)
    let r := drain_all inbox cap rest t.2
    ((n, t.1) :: r.1, r.2)

/-- `DriverManager.run_once`: drain all pipes, then once per elapsed
wall-second rebuild the stats map; returns the state and the truthiness of
the four coalescing maps (stats excluded, as in the source). -/
def run_once (s : DMState V) (inbox : List (String × List (WorkerMsg V)))
    (cap : Nat) (now_sec : Nat) : DMState V × Bool :=
  let t := drain_all inbox cap s.drivers s
  let s2 : DMState V := { t.2 with drivers := t.1 }
  let s3 :=
    if now_sec - s2.last_status_record ≥ 1 then
      { s2 with last_status_record := now_sec
                stats_updates := [("DRIVER_COUNT", s2.drivers.length),
                                  ("VARIABLE_COUNT", s2.handles.length)] }
    else s2
  (s3, !s3.status_updates.isEmpty || !s3.info_updates.isEmpty ||
       !s3.var_info_updates.isEmpty || !s3.value_updates.isEmpty)

/-- The end-of-cycle emission block of `run_forever`: each non-empty
coalescing map is sent as its own frame (`STATUS`, `INFO`, `VAR_INFO`,
`UPDATES`, `STATS`, in this order) and cleared. -/
def emit_frames (s2 : DMState V) : DMState V × List (OutFrame V) :=
  let p3 : DMState V × List (OutFrame V) :=
    if s2.status_updates.isEmpty then (s2, [])
    else ({ s2 with status_updates := [] }, [OutFrame.STATUS s2.status_updates])
  let p4 : DMState V × List (OutFrame V) :=
    if p3.1.info_updates.isEmpty then (p3.1, [])
    else ({ p3.1 with info_updates := [] }, [OutFrame.INFO p3.1.info_updates])
  let p5 : DMState V × List (OutFrame V) :=
    if p4.1.var_info_updates.isEmpty then (p4.1, [])
    else ({ p4.1 with var_info_updates := [] }, [OutFrame.VAR_INFO p4.1.var_info_updates])
  let p6 : DMState V × List (OutFrame V) :=
    if p5.1.value_updates.isEmpty then (p5.1, [])
    else ({ p5.1 with value_updates := [] }, [OutFrame.UPDATES p5.1.value_updates])
  let p7 : DMState V × List (OutFrame V) :=
    if p6.1.stats_updates.isEmpty then (p6.1, [])
    else ({ p6.1 with stats_updates := [] }, [OutFrame.STATS p6.1.stats_updates])
  (p7.1, p3.2 ++ p4.2 ++ p5.2 ++ p6.2 ++ p7.2)

/-- The host-frame drain at the top of a `run_forever` iteration: commands
executed in order, replies echoed as frames. -/
def process_frames (s : DMState V) :
    List (HostCmd V) → Option (DMState V × List (OutFrame V))
  | [] => some (s, [])
  | c :: rest =>
    match send_command s c with
    | none => none
    | some (s', r) =>
      match process_frames s' rest with
      | none => none
      | some (s'', outs) =>
        some (s'', (match r with
                    | some rep => [OutFrame.reply (tagOf c) rep]
                    | none => []) ++ outs)

/-- One iteration of the `run_forever` loop: drain up to 10 host frames,
then (still running) invoke `run_once` and emit any non-empty coalesced
maps as frames, clearing them.  `none` when a command handler raised. -/
def cycle (s : DMState V) (host : List (HostCmd V))
    (inbox : List (String × List (WorkerMsg V))) (now_sec : Nat) :
    Option (DMState V × List (OutFrame V)) :=
  match process_frames s (host.take 10) with
  | none => none
  | some (s1, outs) =>
    if s1.running then
      if (run_once s1 inbox 10 now_sec).2 then
        some ((emit_frames (run_once s1 inbox 10 now_sec).1).1,
          outs ++ (emit_frames (run_once s1 inbox 10 now_sec).1).2)
      else some ((run_once s1 inbox 10 now_sec).1, outs)
    else some (s1, outs)

/-- The states the manager loop can reach: the initial state, plus one
`run_forever` iteration from a reachable state whose `_running` flag still
holds (the `while self._running` guard), over arbitrary host frames, worker
messages and clock reading. -/
inductive Reachable : DMState V → Prop where
  | init : Reachable (initState V)
  | step {s s' : DMState V} (host : List (HostCmd V))
      (inbox : List (String × List (WorkerMsg V))) (now_sec : Nat)
      (outs : List (OutFrame V)) :
      Reachable s → s.running = true →
      cycle s host inbox now_sec = some (s', outs) → Reachable s'

/-! ### Invariant predicates and spec-side definitions -/

/-- The handle-index invariant exactly as claimed (spec §3, invariant 1):
`handle_index[h] = (v, d)` iff driver `d` exists, variable `v` exists in
driver `d`, and `h` is among that variable's handlers. -/
def claimed_handle_inv (s : DMState V) : Prop :=
  ∀ h vid dn, lookup s.handles h = some (vid, dn) ↔
    ∃ d, lookup s.drivers dn = some d ∧
      ∃ vs, lookup d.vars vid = some vs ∧ h ∈ vs.handlers

/-- The forward direction of the handle-index invariant (spec §8,
invariant 1): every index entry resolves to an existing driver and
variable whose handlers contain the handle. -/
def handle_inv (s : DMState V) : Prop :=
  ∀ h vid dn, lookup s.handles h = some (vid, dn) →
    ∃ d, lookup s.drivers dn = some d ∧
      ∃ vs, lookup d.vars vid = some vs ∧ h ∈ vs.handlers

/-- Driver names in the registry are `DRIVER_<k>` for distinct counters
bounded by the current counter value. -/
def names_ok (s : DMState V) : Prop :=
  ∃ ks : List Nat, ks.Nodup ∧ (∀ k ∈ ks, k ≤ s.driver_counter) ∧
    s.drivers.map Prod.fst = ks.map mkDriverName

/-- The structural invariant claimed by C3, as stated: handler lists of
drivers and variables are non-empty and duplicate-free, info logs are
bounded by 5. -/
def claimed_structural_inv (s : DMState V) : Prop :=
  ∀ p ∈ s.drivers, p.2.handlers ≠ [] ∧ p.2.handlers.Nodup ∧
    p.2.info_log.length ≤ 5 ∧
    ∀ q ∈ p.2.vars, q.2.handlers ≠ [] ∧ q.2.handlers.Nodup

/-- The amended structural invariant: non-emptiness and the log bound,
without duplicate-freedom. -/
def structural_inv (s : DMState V) : Prop :=
  ∀ p ∈ s.drivers, p.2.handlers ≠ [] ∧ p.2.info_log.length ≤ 5 ∧
    ∀ q ∈ p.2.vars, q.2.handlers ≠ []

/-- Every registry entry is stored under its own driver's name
(`self._drivers[driver_struct.name] = driver_struct`). -/
def keys_match (s : DMState V) : Prop := ∀ p ∈ s.drivers, p.2.name = p.1

/-- The inductive invariant carried through every manager step. -/
def manager_inv (s : DMState V) : Prop :=
  names_ok s ∧ keys_match s ∧ structural_inv s ∧ (s.running = true → handle_inv s)

/-- What one worker message may do to a driver record: identity, handlers
and pending batch are fixed, the info log stays bounded, and variables keep
their handler lists (none is created or destroyed). -/
def worker_step_ok (d d' : DriverStructure V) : Prop :=
  d'.name = d.name ∧ d'.class_name = d.class_name ∧ d'.parameters = d.parameters ∧
  d'.handlers = d.handlers ∧ d'.updates = d.updates ∧
  (d.info_log.length ≤ 5 → d'.info_log.length ≤ 5) ∧
  (∀ vid vs, lookup d.vars vid = some vs →
    ∃ vs', lookup d'.vars vid = some vs' ∧ vs'.handlers = vs.handlers) ∧
  ∀ q ∈ d'.vars, ∃ vs, (q.1, vs) ∈ d.vars ∧ q.2.handlers = vs.handlers

/-- What one worker message may do to the manager state: only the four
coalescing maps change. -/
def maps_only_step (s s' : DMState V) : Prop :=
  s'.drivers = s.drivers ∧ s'.driver_counter = s.driver_counter ∧
  s'.handles = s.handles ∧ s'.running = s.running ∧
  s'.wsent = s.wsent ∧ s'.joined = s.joined ∧
  s'.last_status_record = s.last_status_record ∧
  s'.stats_updates = s.stats_updates

/-- Follows the spec's words (§4.3): two setups are compatible iff the
class name matches and, for every key present in both parameter maps, the
two values are equal; keys present on only one side are ignored. -/
def spec_compatible (d : DriverStructure V) (dd : DriverData V) : Prop :=
  d.class_name = ddClass dd ∧
    ∀ k, (lookup ((ddSetup dd).parameters.getD []) k).isSome = true →
      (lookup (d.parameters.getD []) k).isSome = true →
      lookup ((ddSetup dd).parameters.getD []) k = lookup (d.parameters.getD []) k

/-- A successful lookup is a binding of the list. -/
theorem lookup_mem {α : Type} {l : List (String × α)} {k : String} {v : α}
    (h : lookup l k = some v) : (k, v) ∈ l := by
  induction l with
  | nil => simp [lookup] at h
  | cons a rest ih =>
    by_cases hak : a.1 = k
    · obtain ⟨k0, v0⟩ := a
      simp only at hak
      simp only [lookup, if_pos hak] at h
      injection h with h2
      subst hak
      subst h2
      exact List.mem_cons_self _ _
    · simp only [lookup, if_neg hak] at h
      exact List.mem_cons_of_mem _ (ih h)

/-- A key with a binding in the list has a successful lookup. -/
theorem mem_lookup_isSome {α : Type} {l : List (String × α)} {k : String} {v : α}
    (h : (k, v) ∈ l) : (lookup l k).isSome = true := by
  induction l with
  | nil => simp at h
  | cons a rest ih =>
    by_cases hak : a.1 = k
    · simp [lookup, hak]
    · rcases List.mem_cons.1 h with h' | h'
      · cases h'; simp at hak
      · simp only [lookup, if_neg hak]
        exact ih h'

instance (d : DriverStructure V) (dd : DriverData V) :
    Decidable (spec_compatible d dd) := by
  unfold spec_compatible
  refine @instDecidableAnd _ _ (by infer_instance) ?_
  refine decidable_of_iff
    (∀ p ∈ (ddSetup dd).parameters.getD [],
      (lookup (d.parameters.getD []) p.1).isSome = true →
      lookup ((ddSetup dd).parameters.getD []) p.1 = lookup (d.parameters.getD []) p.1) ?_
  constructor
  · intro hp k hk hw
    obtain ⟨v, hv⟩ := Option.isSome_iff_exists.1 hk
    exact hp (k, v) (lookup_mem hv) hw
  · intro hp p hmem hw
    exact hp p.1 (mem_lookup_isSome hmem) hw

/-! ### Concrete example data (values are `Int`) -/

/-- A variable spec `&#x7b;handle: "vh1"&#x7d;` for variable id `x`. -/
def vdX : VarData Int := { handle := some "vh1", extra := [] }

/-- A variable spec reusing the same handle string `vh1` for a different
variable id `y`. -/
def vdY : VarData Int := { handle := some "vh1", extra := [] }

/-- A well-formed setup request for the registered class `udp_driver`. -/
def udpData : DriverData Int :=
  { DRIVER := some "udp_driver"
    SETUP := some { parameters := some [("ip", (1 : Int))], vars := some [("x", vdX)] } }

/-- A setup request for a second registered class, declaring a variable
`y` whose handle collides with `udpData`'s `vh1`. -/
def s7Data : DriverData Int :=
  { DRIVER := some "s7protocol"
    SETUP := some { parameters := some [("ip", (2 : Int))], vars := some [("y", vdY)] } }

/-- A request for `udp_driver` whose `SETUP` mapping lacks the
`"parameters"` key. -/
def noParamData : DriverData Int :=
  { DRIVER := some "udp_driver", SETUP := some { parameters := none, vars := none } }

/-- The manager state after one `SETUP_DRIVERS` cycle providing `udpData`
under driver handle `h1`. -/
def sEx1 : DMState Int :=
  match cycle (initState Int) [.SETUP_DRIVERS [("h1", udpData)]] [] 0 with
  | some (s, _) => s
  | none => initState Int

/-- The driver record started for `udpData` (the single driver of
`sEx1`). -/
def dEx1 : DriverStructure Int :=
  { class_name := "udp_driver", name := "DRIVER_1", handlers := ["h1"]
    parameters := some [("ip", (1 : Int))]
    vars := [("x", { handlers := ["vh1"], parameters := vdX, value := none
                     info := "", write_count := 0, read_count := 0 })]
    status := none, info := "", info_log := [], latency := "", pipe := true
    updates := [] }

/-- The state after provisioning `udpData` and draining a worker
`STATUS(RUNNING)` message in the same cycle: one running driver. -/
def sExRun : DMState Int :=
  match cycle (initState Int) [.SETUP_DRIVERS [("h1", udpData)]]
      [("DRIVER_1", [.STATUS .RUNNING])] 0 with
  | some (s, _) => s
  | none => initState Int

/-- The worker inbox of scenario S3: three `UPDATE` messages for variable
`x` with values 1, 2, 2 drained in one cycle. -/
def c8inbox : List (String × List (WorkerMsg Int)) :=
  [("DRIVER_1", [.UPDATE [("x", 1)], .UPDATE [("x", 2)], .UPDATE [("x", 2)]])]

/-- `sExRun`'s single driver: `dEx1` after the worker reported
`RUNNING`. -/
def dEx1Run : DriverStructure Int := { dEx1 with status := some .RUNNING }

/-- The state after the dropped write of claim C7's witness. -/
def sC7post : DMState Int :=
  match send_command sEx1 (HostCmd.UPDATES [("vh1", (5 : Int))]) with
  | some (s, _) => s
  | none => initState Int

/-- The state after the coalescing cycle of scenario S3. -/
def sC8post : DMState Int :=
  match cycle sEx1 [] c8inbox 0 with
  | some (s, _) => s
  | none => initState Int

/-- The state after an idle cycle from the initial state at clock second
1: the stats map has been rebuilt but no frame was emitted. -/
def sC9post : DMState Int :=
  match cycle (initState Int) [] [] 1 with
  | some (s, _) => s
  | none => initState Int

/-- The state after the idle cycle at second 5 from `sEx1`. -/
def sC9w : DMState Int :=
  match cycle sEx1 [] [] 5 with
  | some (s, _) => s
  | none => initState Int

/-- The frames of that cycle (none). -/
def sC9wouts : List (OutFrame Int) :=
  match cycle sEx1 [] [] 5 with
  | some (_, o) => o
  | none => []

/-- Two drivers of different classes declaring distinct variables under
the same variable handle `vh1`: the index ends up pointing at the second
one only. -/
def sC2cex : DMState Int :=
  match cycle (initState Int)
      [.SETUP_DRIVERS [("h1", udpData)], .SETUP_DRIVERS [("h2", s7Data)]] [] 0 with
  | some (s, _) => s
  | none => initState Int

/-- The same spec twice under the same driver handle `h1`: the handler
list of `DRIVER_1` ends as `["h1", "h1"]`. -/
def sC3cex : DMState Int :=
  match cycle (initState Int)
      [.SETUP_DRIVERS [("h1", udpData)], .SETUP_DRIVERS [("h1", udpData)]] [] 0 with
  | some (s, _) => s
  | none => initState Int

/-! ### Decimal representation: decoding `Nat.repr` -/

/-- The decimal value of a digit character produced by `Nat.digitChar` for
arguments below 10. -/
def digitVal (c : Char) : Nat :=
  if c = '0' then 0 else if c = '1' then 1 else if c = '2' then 2
  else if c = '3' then 3 else if c = '4' then 4 else if c = '5' then 5
  else if c = '6' then 6 else if c = '7' then 7 else if c = '8' then 8 else 9

/-- The decimal digit list of a natural number, most significant first. -/
def natDigitsChar (n : Nat) : List Char :=
  if hlt : n < 10 then [Nat.digitChar n]
  else natDigitsChar (n / 10) ++ [Nat.digitChar (n % 10)]
termination_by n
decreasing_by exact Nat.div_lt_self (by omega) (by omega)

/-- Fold a digit list onto an accumulator in base 10. -/
def decDigits (x : Nat) (l : List Char) : Nat :=
  l.foldl (fun a c => a * 10 + digitVal c) x

/-! ### Association-list lemmas -/

theorem lookup_setKey_self {α : Type} (l : List (String × α)) (k : String) (v : α) :
    lookup (setKey l k v) k = some v := by
  induction l with
  | nil => simp [lookup, setKey]
  | cons a rest ih =>
    by_cases hak : a.1 = k
    · simp [setKey, hak, lookup]
    · simp [setKey, hak, lookup, ih]

theorem lookup_setKey_ne {α : Type} (l : List (String × α)) {k k' : String} (v : α)
    (hne : k' ≠ k) : lookup (setKey l k v) k' = lookup l k' := by
  induction l with
  | nil =>
    simp only [setKey, lookup]
    rw [if_neg (fun h : k = k' => hne h.symm)]
  | cons a rest ih =>
    by_cases hak : a.1 = k
    · simp only [setKey, if_pos hak, lookup]
      rw [if_neg (fun h : k = k' => hne h.symm),
        if_neg (fun h : a.1 = k' => hne (h.symm.trans hak))]
    · simp only [setKey, if_neg hak, lookup]
      by_cases hak' : a.1 = k'
      · simp [hak']
      · simp [hak', ih]

theorem setKey_of_lookup_none {α : Type} {l : List (String × α)} {k : String}
    (hnone : lookup l k = none) (v : α) : setKey l k v = l ++ [(k, v)] := by
  induction l with
  | nil => simp [setKey]
  | cons a rest ih =>
    by_cases hak : a.1 = k
    · simp [lookup, hak] at hnone
    · simp only [lookup, if_neg hak] at hnone
      simp [setKey, hak, ih hnone]

theorem map_fst_setKey_of_isSome {α : Type} {l : List (String × α)} {k : String}
    (hsome : (lookup l k).isSome = true) (v : α) :
    (setKey l k v).map Prod.fst = l.map Prod.fst := by
  induction l with
  | nil => simp [lookup] at hsome
  | cons a rest ih =>
    by_cases hak : a.1 = k
    · simp [setKey, hak]
    · simp only [lookup, if_neg hak] at hsome
      simp [setKey, hak, ih hsome]

theorem length_setKey_of_isSome {α : Type} {l : List (String × α)} {k : String}
    (hsome : (lookup l k).isSome = true) (v : α) :
    (setKey l k v).length = l.length := by
  have := map_fst_setKey_of_isSome hsome v
  have h1 := congrArg List.length this
  simpa using h1

theorem lookup_append_of_some {α : Type} {l1 : List (String × α)} {k : String} {v : α}
    (h : lookup l1 k = some v) (l2 : List (String × α)) :
    lookup (l1 ++ l2) k = some v := by
  induction l1 with
  | nil => simp [lookup] at h
  | cons a rest ih =>
    by_cases hak : a.1 = k
    · simp only [lookup, if_pos hak] at h
      simp [lookup, hak, h]
    · simp only [lookup, if_neg hak] at h
      simp [lookup, hak, ih h]

theorem lookup_append_of_none {α : Type} {l1 : List (String × α)} {k : String}
    (h : lookup l1 k = none) (l2 : List (String × α)) :
    lookup (l1 ++ l2) k = lookup l2 k := by
  induction l1 with
  | nil => simp [lookup]
  | cons a rest ih =>
    by_cases hak : a.1 = k
    · simp [lookup, hak] at h
    · simp only [lookup, if_neg hak] at h
      simp [lookup, hak, ih h]

theorem lookup_updMerge_cases {α : Type} {other l : List (String × α)} {k : String} {x : α}
    (h : lookup (updMerge l other) k = some x) :
    lookup l k = some x ∨ (k, x) ∈ other := by
  induction other generalizing l with
  | nil => exact Or.inl h
  | cons a rest ih =>
    obtain ⟨k0, v0⟩ := a
    have h0 : lookup (updMerge (setKey l k0 v0) rest) k = some x := h
    rcases ih h0 with h' | h'
    · by_cases hak : k = k0
      · subst hak
        rw [lookup_setKey_self] at h'
        injection h' with h2
        subst h2
        exact Or.inr (List.mem_cons_self _ _)
      · rw [lookup_setKey_ne _ _ hak] at h'
        exact Or.inl h'
    · exact Or.inr (List.mem_cons_of_mem _ h')

theorem lookup_of_mem_nodup {α : Type} {l : List (String × α)} {k : String} {v : α}
    (hnd : (l.map Prod.fst).Nodup) (hmem : (k, v) ∈ l) : lookup l k = some v := by
  induction l with
  | nil => simp at hmem
  | cons a rest ih =>
    rcases List.mem_cons.1 hmem with h' | h'
    · subst h'
      simp [lookup]
    · have hak : a.1 ≠ k := by
        intro he
        have hkmem : k ∈ rest.map Prod.fst := List.mem_map_of_mem Prod.fst h'
        simp only [List.map_cons, List.nodup_cons] at hnd
        exact hnd.1 (he ▸ hkmem)
      simp only [lookup, if_neg hak]
      exact ih (by simp only [List.map_cons, List.nodup_cons] at hnd; exact hnd.2) h'

/-! ### Injectivity of the decimal representation -/

theorem digitVal_digitChar {k : Nat} (hk : k < 10) : digitVal (Nat.digitChar k) = k := by
  interval_cases k <;> decide

theorem natDigitsChar_lt (n : Nat) (hlt : n < 10) :
    natDigitsChar n = [Nat.digitChar n] := by
  rw [natDigitsChar]
  simp [hlt]

theorem natDigitsChar_ge (n : Nat) (hge : ¬ n < 10) :
    natDigitsChar n = natDigitsChar (n / 10) ++ [Nat.digitChar (n % 10)] := by
  rw [natDigitsChar]
  simp [hge]

theorem toDigitsCore_eq_natDigitsChar :
    ∀ (fuel n : Nat) (ds : List Char), n < fuel →
      Nat.toDigitsCore 10 fuel n ds = natDigitsChar n ++ ds := by
  intro fuel
  induction fuel with
  | zero => intro n ds h; omega
  | succ f ih =>
    intro n ds h
    by_cases hdiv : n / 10 = 0
    · have hn : n < 10 := by omega
      simp only [Nat.toDigitsCore, hdiv, if_pos]
      rw [natDigitsChar_lt n hn, Nat.mod_eq_of_lt hn]
      simp
    · have hn : ¬ n < 10 := by omega
      simp only [Nat.toDigitsCore, hdiv, if_neg, if_false]
      rw [ih (n / 10) _ (by omega)]
      rw [natDigitsChar_ge n hn]
      simp

theorem decDigits_natDigitsChar :
    ∀ (n x : Nat), decDigits x (natDigitsChar n) = x * 10 ^ (natDigitsChar n).length + n := by
  intro n
  induction n using Nat.strong_induction_on with
  | _ n ih =>
    intro x
    by_cases hn : n < 10
    · rw [natDigitsChar_lt n hn]
      simp [decDigits, digitVal_digitChar hn]
    · rw [natDigitsChar_ge n hn]
      have hdlt : n / 10 < n := Nat.div_lt_self (by omega) (by omega)
      simp only [decDigits, List.foldl_append, List.foldl_cons, List.foldl_nil]
      have h1 := ih (n / 10) hdlt x
      simp only [decDigits] at h1
      rw [h1, digitVal_digitChar (Nat.mod_lt n (by omega))]
      have h2 : (x * 10 ^ (natDigitsChar (n / 10)).length + n / 10) * 10 + n % 10 =
          x * (10 ^ (natDigitsChar (n / 10)).length * 10) + (10 * (n / 10) + n % 10) := by
        ring
      rw [h2, Nat.div_add_mod, List.length_append, List.length_cons, List.length_nil,
        pow_succ]

theorem natDigitsChar_inj {n m : Nat} (h : natDigitsChar n = natDigitsChar m) : n = m := by
  have h1 := decDigits_natDigitsChar n 0
  have h2 := decDigits_natDigitsChar m 0
  rw [h] at h1
  simp only [Nat.zero_mul, Nat.zero_add] at h1 h2
  omega

theorem natRepr_inj {n m : Nat} (h : Nat.repr n = Nat.repr m) : n = m := by
  have hn : Nat.repr n = (natDigitsChar n).asString := by
    show (Nat.toDigits 10 n).asString = _
    rw [Nat.toDigits, toDigitsCore_eq_natDigitsChar (n + 1) n [] (by omega)]
    simp
  have hm : Nat.repr m = (natDigitsChar m).asString := by
    show (Nat.toDigits 10 m).asString = _
    rw [Nat.toDigits, toDigitsCore_eq_natDigitsChar (m + 1) m [] (by omega)]
    simp
  rw [hn, hm] at h
  have hdata : natDigitsChar n = natDigitsChar m := congrArg String.data h
  exact natDigitsChar_inj hdata

theorem mkDriverName_inj {j k : Nat} (h : mkDriverName j = mkDriverName k) : j = k := by
  have hdata := congrArg String.data h
  simp only [mkDriverName, String.data_append] at hdata
  have h2 : (Nat.repr j).data = (Nat.repr k).data :=
    List.append_cancel_left hdata
  exact natRepr_inj (by apply String.ext; exact h2)

/-! ### Claim C1: shutdown via `CLEAN` -/

/-- C1 (counterexample): the claim asserts the handle index is empty after
`CLEAN`; on the concrete run that provisions `udpData` and then cleans,
the `CLEAN` command completes (with reply `"SUCCESS"`) yet the handle
index still holds the `vh1` entry — `clean_drivers` never touches
`self._handles`. -/
theorem c1_handles_not_cleared :
    ∃ (s' : DMState Int) (outs : List (OutFrame Int)),
      cycle (initState Int) [.SETUP_DRIVERS [("h1", udpData)], .CLEAN] [] 0 =
        some (s', outs) ∧
      OutFrame.reply HostTag.CLEAN (HostReply.str "SUCCESS") ∈ outs ∧
      s'.drivers = [] ∧ s'.handles ≠ [] := by
  exact ⟨_, _, rfl, by decide, by decide, by decide⟩

/-- C1 (amended): after the `CLEAN` command completes, an `EXIT` message
has been sent on every live driver's channel, every worker task has been
joined (in pop order), the driver registry is empty and the reply is
`"SUCCESS"`; the handle index however is left unchanged, not emptied. -/
theorem c1_clean_effect (s : DMState V) :
    ∃ s', send_command s HostCmd.CLEAN = some (s', some (HostReply.str "SUCCESS")) ∧
      s'.drivers = [] ∧ s'.handles = s.handles ∧ s'.running = false ∧
      s'.wsent = s.wsent ++ s.drivers.map (fun p => (p.1, DriverAction.EXIT)) ∧
      s'.joined = s.joined ++ (s.drivers.map Prod.fst).reverse ∧
      ∀ p ∈ s.drivers, (p.1, DriverAction.EXIT (V := V)) ∈ s'.wsent ∧ p.1 ∈ s'.joined := by
  refine ⟨_, rfl, rfl, rfl, rfl, rfl, rfl, ?_⟩
  intro p hp
  constructor
  · show _ ∈ s.wsent ++ s.drivers.map (fun p => (p.1, DriverAction.EXIT))
    exact List.mem_append_right _
      (List.mem_map_of_mem (fun p => (p.1, DriverAction.EXIT)) hp)
  · show _ ∈ s.joined ++ (s.drivers.map Prod.fst).reverse
    refine List.mem_append_right _ ?_
    rw [List.mem_reverse]
    exact List.mem_map_of_mem Prod.fst hp

/-- C1 (witness): `c1_clean_effect` applied to the concrete provisioned
state `sEx1`. -/
theorem c1_clean_effect_witness :
    ∃ s', send_command sEx1 HostCmd.CLEAN = some (s', some (HostReply.str "SUCCESS")) ∧
      s'.drivers = [] ∧ s'.handles = sEx1.handles ∧ s'.running = false ∧
      s'.wsent = sEx1.wsent ++ sEx1.drivers.map (fun p => (p.1, DriverAction.EXIT)) ∧
      s'.joined = sEx1.joined ++ (sEx1.drivers.map Prod.fst).reverse ∧
      ∀ p ∈ sEx1.drivers, (p.1, DriverAction.EXIT (V := Int)) ∈ s'.wsent ∧ p.1 ∈ s'.joined :=
  c1_clean_effect sEx1

/-! ### Claim C10: `SETUP_DRIVERS` is not total over its payload shape -/

/-- If the request's `SETUP` lacks `"parameters"`, the compatibility scan
raises at the first driver whose class matches (and returns `some false`
before that, since a class mismatch never touches the parameters). -/
theorem find_compatible_none_of_params_none {dd : DriverData V}
    (hp : (ddSetup dd).parameters = none) :
    ∀ l : List (String × DriverStructure V),
      (∃ p ∈ l, p.2.class_name = ddClass dd) → find_compatible_driver dd l = none := by
  intro l
  induction l with
  | nil => intro hex; simp at hex
  | cons a rest ih =>
    intro hex
    by_cases hcls : a.2.class_name = ddClass dd
    · simp [find_compatible_driver, is_compatible, hcls, hp]
    · have h1 : is_compatible a.2 dd = some false := by
        simp [is_compatible, hcls]
      simp only [find_compatible_driver, h1]
      apply ih
      rcases hex with ⟨p, hpmem, hpcls⟩
      rcases List.mem_cons.1 hpmem with h' | h'
      · exact absurd (h' ▸ hpcls) hcls
      · exact ⟨p, h', hpcls⟩

/-- C10: a `SETUP_DRIVERS` request whose `SETUP` mapping lacks the
`"parameters"` key raises (the handler returns no reply at all) whenever
some live driver's class name equals the request's class name: the
compatibility check dereferences `None`. -/
theorem c10_missing_parameters_raises (s : DMState V) (h : String) (dd : DriverData V)
    (hp : (ddSetup dd).parameters = none)
    (hex : ∃ p ∈ s.drivers, p.2.class_name = ddClass dd) :
    send_command s (HostCmd.SETUP_DRIVERS [(h, dd)]) = none := by
  have hfind := find_compatible_none_of_params_none hp s.drivers hex
  simp [send_command, setup_drivers, setup_one, hfind]

/-- C10 (witness): from the reachable state `sEx1` (one `udp_driver`
live), submitting `noParamData` under a fresh handle makes the whole
command raise at the public interface. -/
theorem c10_witness :
    (ddSetup noParamData).parameters = none ∧
    (∃ p ∈ sEx1.drivers, p.2.class_name = ddClass noParamData) ∧
    send_command sEx1 (HostCmd.SETUP_DRIVERS [("h2", noParamData)]) = none :=
  ⟨rfl, by decide,
    c10_missing_parameters_raises sEx1 "h2" noParamData rfl (by decide)⟩

/-! ### Claim C5: the compatibility judgement and the resolver -/

/-- The parameter loop agrees with the spec's "every key present on both
sides carries equal values", for a duplicate-free request map. -/
theorem checkParams_iff {dps ps : List (String × V)}
    (hnd : (ps.map Prod.fst).Nodup) :
    checkParams dps ps = true ↔
      ∀ k, (lookup ps k).isSome = true → (lookup dps k).isSome = true →
        lookup ps k = lookup dps k := by
  unfold checkParams
  rw [List.all_eq_true]
  constructor
  · intro hall k h1 h2
    obtain ⟨v, hv⟩ := Option.isSome_iff_exists.1 h1
    obtain ⟨w, hw⟩ := Option.isSome_iff_exists.1 h2
    have hmem := lookup_mem hv
    have hthis := hall (k, v) hmem
    simp only [hw, decide_eq_true_eq] at hthis
    rw [hv, hw, hthis]
  · intro hspec kv hmem
    have hv : lookup ps kv.1 = some kv.2 := lookup_of_mem_nodup hnd (by cases kv; exact hmem)
    cases hw : lookup dps kv.1 with
    | none => simp [hw]
    | some w =>
      have := hspec kv.1 (by simp [hv]) (by simp [hw])
      rw [hv, hw] at this
      injection this with h2
      simp [hw, h2]

/-- With both parameter maps present (and the request's duplicate-free),
`is_compatible` computes exactly the spec-side compatibility predicate. -/
theorem is_compatible_eq_decide {d : DriverStructure V} {dd : DriverData V}
    {ps dps : List (String × V)} (hps : (ddSetup dd).parameters = some ps)
    (hnd : (ps.map Prod.fst).Nodup) (hd : d.parameters = some dps) :
    is_compatible d dd = some (decide (spec_compatible d dd)) := by
  have hmain : is_compatible d dd =
      if d.class_name = ddClass dd then some (checkParams dps ps) else some false := by
    unfold is_compatible
    rw [hps, hd]
  rw [hmain]
  by_cases hcls : d.class_name = ddClass dd
  · rw [if_pos hcls]
    congr 1
    cases hcp : checkParams dps ps
    · symm
      rw [decide_eq_false_iff_not]
      intro hsc
      rcases hsc with ⟨_, hsc2⟩
      rw [hps, hd] at hsc2
      simp only [Option.getD_some] at hsc2
      have hck := (checkParams_iff hnd).2 hsc2
      rw [hcp] at hck
      cases hck
    · symm
      rw [decide_eq_true_eq]
      refine ⟨hcls, ?_⟩
      rw [hps, hd]
      simp only [Option.getD_some]
      exact (checkParams_iff hnd).1 hcp
  · rw [if_neg hcls]
    congr 1
    symm
    rw [decide_eq_false_iff_not]
    exact fun hsc => hcls hsc.1

/-- C5 (counterexample): the claim quantifies over every setup request,
but for a request lacking a parameters mapping whose class matches an
existing driver, the code raises instead of judging: the spec-side
condition holds of `dEx1`/`noParamData` yet the judgement is not
`some true`. -/
theorem c5_counterexample :
    spec_compatible dEx1 noParamData ∧ is_compatible dEx1 noParamData ≠ some true := by
  constructor
  · decide
  · decide

/-- C5 (amended): provided the request carries a parameters mapping
(duplicate-free, as a dict's keys are) and a driver's parameters mapping
is present, the driver is judged compatible exactly when the class names
match and every key present in both parameter maps has equal values; and
over a registry of such drivers the resolver returns the first compatible
driver in insertion order (`List.find?`). -/
theorem c5_compatibility :
    (∀ (d : DriverStructure V) (dd : DriverData V) (ps dps : List (String × V)),
      (ddSetup dd).parameters = some ps → (ps.map Prod.fst).Nodup →
      d.parameters = some dps →
      (is_compatible d dd = some true ↔ spec_compatible d dd)) ∧
    (∀ (dd : DriverData V) (ps : List (String × V)) (l : List (String × DriverStructure V)),
      (ddSetup dd).parameters = some ps → (ps.map Prod.fst).Nodup →
      (∀ p ∈ l, p.2.parameters.isSome = true) →
      find_compatible_driver dd l =
        some (l.find? fun p => decide (spec_compatible p.2 dd))) := by
  constructor
  · intro d dd ps dps hps hnd hd
    rw [is_compatible_eq_decide hps hnd hd]
    constructor
    · intro h1
      injection h1 with h2
      exact of_decide_eq_true h2
    · intro h1
      rw [decide_eq_true h1]
  · intro dd ps l hps hnd
    induction l with
    | nil => intro _; rfl
    | cons a rest ih =>
      intro hl
      obtain ⟨dps, hdps⟩ := Option.isSome_iff_exists.1 (hl a (List.mem_cons_self a rest))
      have hic := is_compatible_eq_decide hps hnd hdps
      rcases hsc : decide (spec_compatible a.2 dd) with _ | _
      · rw [hsc] at hic
        simp only [find_compatible_driver, hic, List.find?_cons, hsc]
        exact ih fun p hp => hl p (List.mem_cons_of_mem a hp)
      · rw [hsc] at hic
        simp only [find_compatible_driver, hic, List.find?_cons, hsc]

/-- C5 (witness): `c5_compatibility` at the concrete driver `dEx1` and
request `udpData`. -/
theorem c5_compatibility_witness :
    is_compatible dEx1 udpData = some true ∧
    find_compatible_driver udpData [("DRIVER_1", dEx1)] = some (some ("DRIVER_1", dEx1)) := by
  constructor
  · exact ((c5_compatibility (V := Int)).1 dEx1 udpData [("ip", 1)] [("ip", 1)] rfl
      (by decide) rfl).mpr (by decide)
  · rw [(c5_compatibility (V := Int)).2 udpData [("ip", 1)] [("DRIVER_1", dEx1)] rfl
      (by decide) (by decide)]
    rfl

/-! ### Host writes: support lemmas -/

theorem lookup_map_value {α β : Type} (g : α → β) (l : List (String × α)) (k : String) :
    lookup (l.map fun p => (p.1, g p.2)) k = (lookup l k).map g := by
  induction l with
  | nil => simp [lookup]
  | cons a rest ih =>
    by_cases hak : a.1 = k
    · simp [lookup, hak]
    · simp [lookup, hak, ih]

theorem lookup_foldl_setKey_const {α : Type} (v : α) (hs : List String) :
    ∀ (m : List (String × α)) (h : String),
      lookup (hs.foldl (fun m h0 => setKey m h0 v) m) h =
        if h ∈ hs then some v else lookup m h := by
  induction hs with
  | nil => intro m h; simp
  | cons h0 rest ih =>
    intro m h
    rw [List.foldl_cons, ih]
    by_cases hr : h ∈ rest
    · simp [hr]
    · by_cases hh0 : h = h0
      · subst hh0
        simp [hr, lookup_setKey_self]
      · simp [hr, hh0, lookup_setKey_ne _ _ hh0]

/-- `clearPending` always leaves an empty batch. -/
theorem clearPending_updates (d : DriverStructure V) : (clearPending d).updates = [] := by
  unfold clearPending
  split
  · next hemp => exact List.isEmpty_iff.1 hemp
  · rfl

/-- A driver whose batch is already empty is untouched by the flush. -/
theorem clearPending_of_empty {d : DriverStructure V} (h : d.updates = []) :
    clearPending d = d := by
  unfold clearPending
  rw [if_pos (by simp [h])]

/-- The flush sends one message per driver with a pending batch, keyed by
that driver's name: the names form a sublist of the registry's keys. -/
theorem pendingMsgs_names_sublist (l : List (String × DriverStructure V)) :
    ((pendingMsgs l).map Prod.fst).Sublist (l.map Prod.fst) := by
  induction l with
  | nil => simp [pendingMsgs]
  | cons a rest ih =>
    simp only [pendingMsgs, List.filterMap_cons]
    by_cases hc : a.2.updates.isEmpty
    · rw [if_pos hc]
      exact List.Sublist.cons a.1 ih
    · rw [if_neg hc]
      simp only [List.map_cons]
      exact List.Sublist.cons₂ a.1 ih

theorem mem_pendingMsgs_of_lookup {l : List (String × DriverStructure V)} {n : String}
    {d : DriverStructure V} (hl : lookup l n = some d) (hne : d.updates ≠ []) :
    (n, DriverAction.UPDATE d.updates) ∈ pendingMsgs l := by
  apply List.mem_filterMap.2
  refine ⟨(n, d), lookup_mem hl, ?_⟩
  rw [if_neg (by simp [hne])]

theorem pendingMsgs_no_entry {l : List (String × DriverStructure V)} {n : String}
    {d : DriverStructure V} (hnd : (l.map Prod.fst).Nodup) (hl : lookup l n = some d)
    (hemp : d.updates = []) : ∀ a ∈ pendingMsgs l, a.1 ≠ n := by
  intro a ha
  obtain ⟨p, hp, hpa⟩ := List.mem_filterMap.1 ha
  obtain ⟨pn, pd⟩ := p
  by_cases hc : pd.updates.isEmpty
  · rw [if_pos hc] at hpa
    cases hpa
  · rw [if_neg hc] at hpa
    injection hpa with h1
    subst h1
    intro heq
    have hpn : pn = n := heq
    subst hpn
    have hlk := lookup_of_mem_nodup hnd hp
    rw [hl] at hlk
    injection hlk with h2
    rw [← h2] at hc
    simp [hemp] at hc

/-- Frame of one host-write entry: the registry's keys, the handle index
and the worker-send history are untouched. -/
theorem host_update_one_frame {s s' : DMState V} {h : String} {v : V}
    (hu : host_update_one s h v = some s') :
    s'.drivers.map Prod.fst = s.drivers.map Prod.fst ∧ s'.handles = s.handles ∧
      s'.wsent = s.wsent ∧ s'.running = s.running := by
  unfold host_update_one at hu
  split at hu
  · injection hu with hu; subst hu; exact ⟨rfl, rfl, rfl, rfl⟩
  · split at hu
    · injection hu with hu; subst hu; exact ⟨rfl, rfl, rfl, rfl⟩
    · split at hu
      · cases hu
      · next d hld =>
        split at hu
        · split at hu
          · cases hu
          · split at hu
            · injection hu with hu
              subst hu
              refine ⟨?_, rfl, rfl, rfl⟩
              exact map_fst_setKey_of_isSome (by simp [hld]) _
            · injection hu with hu; subst hu; exact ⟨rfl, rfl, rfl, rfl⟩
        · injection hu with hu; subst hu; exact ⟨rfl, rfl, rfl, rfl⟩

theorem host_updates_batch_frame {s s' : DMState V} {batch : List (String × V)}
    (hu : host_updates_batch s batch = some s') :
    s'.drivers.map Prod.fst = s.drivers.map Prod.fst ∧ s'.handles = s.handles ∧
      s'.wsent = s.wsent ∧ s'.running = s.running := by
  induction batch generalizing s with
  | nil =>
    injection hu with hu; subst hu; exact ⟨rfl, rfl, rfl, rfl⟩
  | cons a rest ih =>
    simp only [host_updates_batch] at hu
    split at hu
    · cases hu
    · next smid h1 =>
      obtain ⟨q1, q2, q3, q4⟩ := host_update_one_frame h1
      obtain ⟨w1, w2, w3, w4⟩ := ih hu
      exact ⟨w1.trans q1, w2.trans q2, w3.trans q3, w4.trans q4⟩

/-- A driver that is not `RUNNING` is wholly untouched by a host-write
entry. -/
theorem host_update_one_not_running {s s' : DMState V} {h : String} {v : V}
    {n : String} {d : DriverStructure V}
    (hl : lookup s.drivers n = some d) (hst : d.status ≠ some DriverStatus.RUNNING)
    (hu : host_update_one s h v = some s') : lookup s'.drivers n = some d := by
  unfold host_update_one at hu
  split at hu
  · injection hu with hu; subst hu; exact hl
  · next vid dn _ =>
    split at hu
    · injection hu with hu; subst hu; exact hl
    · split at hu
      · cases hu
      · next d0 hld =>
        split at hu
        · next hst0 =>
          split at hu
          · cases hu
          · split at hu
            · injection hu with hu
              subst hu
              have hdnn : dn ≠ n := by
                intro he
                subst he
                rw [hl] at hld
                injection hld with h2
                subst h2
                exact hst hst0
              show lookup (setKey s.drivers dn _) n = some d
              rw [lookup_setKey_ne _ _ (fun he => hdnn he.symm)]
              exact hl
            · injection hu with hu; subst hu; exact hl
        · injection hu with hu; subst hu; exact hl

theorem host_updates_batch_not_running {s s' : DMState V} {batch : List (String × V)}
    {n : String} {d : DriverStructure V}
    (hl : lookup s.drivers n = some d) (hst : d.status ≠ some DriverStatus.RUNNING)
    (hu : host_updates_batch s batch = some s') : lookup s'.drivers n = some d := by
  induction batch generalizing s with
  | nil => injection hu with hu; subst hu; exact hl
  | cons a rest ih =>
    simp only [host_updates_batch] at hu
    split at hu
    · cases hu
    · next smid h1 =>
      exact ih (host_update_one_not_running hl hst h1) hu

/-! ### Claim C6: host `UPDATES` routing -/

/-- C6: a host write whose handle resolves to a variable on a `RUNNING`
driver updates the variable optimistically (value set, `write_count`
incremented by one, value recorded in the pending batch) exactly when the
value differs from the stored one; and after the whole batch each driver
with a non-empty pending batch receives exactly one `UPDATE` message
carrying those pending values (the sent messages are keyed by pairwise
distinct driver names), after which every pending batch is empty. -/
theorem c6_host_updates :
    (∀ (s : DMState V) (h : String) (v : V) (vid dn : String)
        (d : DriverStructure V) (vs : VariableStructure V),
      lookup s.handles h = some (vid, dn) → dn ≠ "" →
      lookup s.drivers dn = some d → d.status = some DriverStatus.RUNNING →
      lookup d.vars vid = some vs →
      (vs.value = some v → host_update_one s h v = some s) ∧
      (vs.value ≠ some v → ∃ s', host_update_one s h v = some s' ∧
        ∃ d', lookup s'.drivers dn = some d' ∧
          lookup d'.updates vid = some v ∧
          ∃ vs', lookup d'.vars vid = some vs' ∧
            vs'.value = some v ∧ vs'.write_count = vs.write_count + 1)) ∧
    (∀ (s : DMState V) (batch : List (String × V)) (s' : DMState V)
        (rep : Option HostReply),
      (s.drivers.map Prod.fst).Nodup →
      send_command s (HostCmd.UPDATES batch) = some (s', rep) →
      rep = none ∧ ∃ mid, host_updates_batch s batch = some mid ∧
        s'.wsent = s.wsent ++ pendingMsgs mid.drivers ∧
        ((pendingMsgs mid.drivers).map Prod.fst).Nodup ∧
        (∀ p ∈ s'.drivers, p.2.updates = []) ∧
        ∀ (n : String) (d : DriverStructure V), lookup mid.drivers n = some d →
          d.updates ≠ [] → (n, DriverAction.UPDATE d.updates) ∈ pendingMsgs mid.drivers) := by
  constructor
  · intro s h v vid dn d vs hlh hdn hld hst hlv
    constructor
    · intro hveq
      simp only [host_update_one, hlh, hld, hlv, if_neg hdn, if_pos hst]
      rw [if_neg (by simp [hveq])]
    · intro hvne
      simp only [host_update_one, hlh, hld, hlv, if_neg hdn, if_pos hst]
      rw [if_pos hvne]
      refine ⟨_, rfl, _, lookup_setKey_self _ _ _, lookup_setKey_self _ _ _,
        _, lookup_setKey_self _ _ _, rfl, rfl⟩
  · intro s batch s' rep hnd hsend
    simp only [send_command] at hsend
    split at hsend
    · cases hsend
    next mid hb =>
      injection hsend with hsend
      injection hsend with hs' hrep
      subst hs'
      refine ⟨hrep.symm, mid, hb, ?_, ?_, ?_, ?_⟩
      · show (flush_updates mid).wsent = _
        unfold flush_updates
        obtain ⟨_, _, hw, _⟩ := host_updates_batch_frame hb
        simp only
        rw [hw]
      · have hmidnd : (mid.drivers.map Prod.fst).Nodup := by
          obtain ⟨hk, _, _, _⟩ := host_updates_batch_frame hb
          rw [hk]
          exact hnd
        exact (pendingMsgs_names_sublist mid.drivers).nodup hmidnd
      · intro p hp
        obtain ⟨q, hq, hqp⟩ := List.mem_map.1 hp
        rw [← hqp]
        exact clearPending_updates q.2
      · intro n d hln hne
        exact mem_pendingMsgs_of_lookup hln hne

/-- C6 (witness): a write of value 7 to `vh1` on the running driver of
`sExRun` takes the differing-value branch of `c6_host_updates`. -/
theorem c6_host_updates_witness :
    ∃ s', host_update_one sExRun "vh1" (7 : Int) = some s' ∧
      ∃ d', lookup s'.drivers "DRIVER_1" = some d' ∧
        lookup d'.updates "x" = some 7 ∧
        ∃ vs', lookup d'.vars "x" = some vs' ∧
          vs'.value = some 7 ∧ vs'.write_count = 0 + 1 :=
  ((c6_host_updates (V := Int)).1 sExRun "vh1" 7 "x" "DRIVER_1" dEx1Run
    { handlers := ["vh1"], parameters := vdX, value := none, info := ""
      write_count := 0, read_count := 0 }
    (by decide) (by decide) (by decide) (by decide) (by decide)).2 (by decide)

/-! ### Claim C7: writes to a non-`RUNNING` driver are dropped silently -/

/-- C7: an entry of a host `UPDATES` batch whose handle resolves to a
driver whose status is not `RUNNING` is dropped: that driver's record
(hence every variable's value and `write_count`) is unchanged by the whole
command and no message whatsoever is sent to that driver's worker. -/
theorem c7_non_running_silent_drop (s : DMState V) (batch : List (String × V))
    (s' : DMState V) (rep : Option HostReply) (n : String) (d : DriverStructure V)
    (hnd : (s.drivers.map Prod.fst).Nodup)
    (hl : lookup s.drivers n = some d)
    (hst : d.status ≠ some DriverStatus.RUNNING)
    (hupd : d.updates = [])
    (hsend : send_command s (HostCmd.UPDATES batch) = some (s', rep)) :
    lookup s'.drivers n = some d ∧
      ∀ a ∈ s'.wsent, a ∉ s.wsent → a.1 ≠ n := by
  simp only [send_command] at hsend
  split at hsend
  · cases hsend
  case _ mid hb =>
    injection hsend with hsend
    injection hsend with hs' _
    subst hs'
    have hmid : lookup mid.drivers n = some d :=
      host_updates_batch_not_running hl hst hb
    obtain ⟨hk, _, hw, _⟩ := host_updates_batch_frame hb
    have hmidnd : (mid.drivers.map Prod.fst).Nodup := by rw [hk]; exact hnd
    constructor
    · show lookup (mid.drivers.map fun p => (p.1, clearPending p.2)) n = some d
      rw [lookup_map_value, hmid]
      simp [clearPending_of_empty hupd]
    · intro a ha hnotold
      have : a ∈ mid.wsent ++ pendingMsgs mid.drivers := ha
      rcases List.mem_append.1 this with h' | h'
      · rw [hw] at h'
        exact absurd h' hnotold
      · exact pendingMsgs_no_entry hmidnd hmid hupd a h'

/-- C7 (witness): `sEx1`'s driver has status `""` (not `RUNNING`); a write
to `vh1` leaves its record unchanged and sends nothing. -/
theorem c7_witness :
    send_command sEx1 (HostCmd.UPDATES [("vh1", (5 : Int))]) = some (sC7post, none) ∧
      lookup sC7post.drivers "DRIVER_1" = some dEx1 ∧
      ∀ a ∈ sC7post.wsent, a ∉ sEx1.wsent → a.1 ≠ "DRIVER_1" := by
  refine ⟨by decide, ?_⟩
  exact c7_non_running_silent_drop sEx1 [("vh1", (5 : Int))] sC7post none "DRIVER_1" dEx1
    (by decide) (by decide) (by decide) (by decide) (by decide)

/-! ### Claim C8: worker `UPDATE` reconciliation and coalescing -/

/-- C8: one entry of a worker `UPDATE` whose variable exists replaces the
stored value, increments `read_count` by exactly one, and overwrites
`value_updates[h]` for every handle of the variable, exactly when the
value differs from the stored one (nothing changes otherwise); and in the
concrete scenario S3 — worker messages `UPDATE(x:1)`, `UPDATE(x:2)`,
`UPDATE(x:2)` drained in one cycle from `sEx1` — the outbound frame list
is exactly one `UPDATES` frame mapping `vh1` to 2, with `read_count`
increased by exactly 2. -/
theorem c8_worker_update :
    (∀ (d : DriverStructure V) (s : DMState V) (vid : String) (v : V)
        (vs : VariableStructure V),
      lookup d.vars vid = some vs →
      (vs.value = some v → apply_update_entry d s vid v = (d, s)) ∧
      (vs.value ≠ some v →
        ∃ d' s', apply_update_entry d s vid v = (d', s') ∧
          (∃ vs', lookup d'.vars vid = some vs' ∧ vs'.value = some v ∧
            vs'.read_count = vs.read_count + 1) ∧
          (∀ h ∈ vs.handlers, lookup s'.value_updates h = some v) ∧
          ∀ h, h ∉ vs.handlers →
            lookup s'.value_updates h = lookup s.value_updates h)) ∧
    (cycle sEx1 [] c8inbox 0 = some (sC8post, [OutFrame.UPDATES [("vh1", (2 : Int))]]) ∧
      ((lookup sC8post.drivers "DRIVER_1").bind (fun d => lookup d.vars "x")).map
        (fun vs => (vs.read_count, vs.value)) = some (0 + 2, some (2 : Int))) := by
  constructor
  · intro d s vid v vs hlv
    constructor
    · intro hveq
      simp only [apply_update_entry, hlv]
      rw [if_neg (by simp [hveq])]
    · intro hvne
      simp only [apply_update_entry, hlv]
      rw [if_pos hvne]
      refine ⟨_, _, rfl, ⟨_, lookup_setKey_self _ _ _, rfl, rfl⟩, ?_, ?_⟩
      · intro h hmem
        show lookup (vs.handlers.foldl (fun m h0 => setKey m h0 v) s.value_updates) h = _
        rw [lookup_foldl_setKey_const, if_pos hmem]
      · intro h hmem
        show lookup (vs.handlers.foldl (fun m h0 => setKey m h0 v) s.value_updates) h = _
        rw [lookup_foldl_setKey_const, if_neg hmem]
  · exact ⟨by decide, by decide⟩

/-! ### Registry and variable-registration lemmas -/

theorem mem_setKey {α : Type} {l : List (String × α)} {k : String} {v : α}
    {q : String × α} (h : q ∈ setKey l k v) : q ∈ l ∨ q = (k, v) := by
  induction l with
  | nil => simpa [setKey] using h
  | cons a rest ih =>
    by_cases hak : a.1 = k
    · simp only [setKey, if_pos hak] at h
      rcases List.mem_cons.1 h with h' | h'
      · exact Or.inr h'
      · exact Or.inl (List.mem_cons_of_mem _ h')
    · simp only [setKey, if_neg hak] at h
      rcases List.mem_cons.1 h with h' | h'
      · exact Or.inl (h' ▸ List.mem_cons_self _ _)
      · rcases ih h' with h'' | h''
        · exact Or.inl (List.mem_cons_of_mem _ h'')
        · exact Or.inr h''

theorem lookup_none_of_not_mem {α : Type} {l : List (String × α)} {k : String}
    (h : k ∉ l.map Prod.fst) : lookup l k = none := by
  induction l with
  | nil => rfl
  | cons a rest ih =>
    obtain ⟨ak, av⟩ := a
    simp only [List.map_cons, List.mem_cons] at h
    push_neg at h
    have hne : ¬ ak = k := fun he => h.1 he.symm
    simp only [lookup, if_neg hne]
    exact ih h.2

theorem names_nodup {s : DMState V} (h : names_ok s) :
    (s.drivers.map Prod.fst).Nodup := by
  obtain ⟨ks, hnd, _, hmap⟩ := h
  rw [hmap]
  exact hnd.map fun a b hab => mkDriverName_inj hab

theorem fresh_name_not_mem {s : DMState V} (h : names_ok s) :
    mkDriverName (s.driver_counter + 1) ∉ s.drivers.map Prod.fst := by
  obtain ⟨ks, _, hbound, hmap⟩ := h
  rw [hmap]
  intro hmem
  obtain ⟨k, hk, hkeq⟩ := List.mem_map.1 hmem
  have := mkDriverName_inj hkeq
  have := hbound k hk
  omega

theorem find_compatible_mem {dd : DriverData V} {p : String × DriverStructure V} :
    ∀ {l : List (String × DriverStructure V)},
      find_compatible_driver dd l = some (some p) → p ∈ l := by
  intro l
  induction l with
  | nil => intro h; simp [find_compatible_driver] at h
  | cons a rest ih =>
    intro h
    simp only [find_compatible_driver] at h
    split at h
    · cases h
    · injection h with h1
      injection h1 with h2
      exact h2 ▸ List.mem_cons_self _ _
    · exact List.mem_cons_of_mem _ (ih h)

/-- `add_driver_variables` leaves every field but `vars` untouched. -/
theorem add_driver_variables_fields (l : List (String × VarData V)) :
    ∀ d : DriverStructure V,
      (add_driver_variables d l).1.name = d.name ∧
      (add_driver_variables d l).1.class_name = d.class_name ∧
      (add_driver_variables d l).1.parameters = d.parameters ∧
      (add_driver_variables d l).1.handlers = d.handlers ∧
      (add_driver_variables d l).1.status = d.status ∧
      (add_driver_variables d l).1.info_log = d.info_log ∧
      (add_driver_variables d l).1.updates = d.updates ∧
      (add_driver_variables d l).1.pipe = d.pipe := by
  induction l with
  | nil => intro d; exact ⟨rfl, rfl, rfl, rfl, rfl, rfl, rfl, rfl⟩
  | cons a rest ih =>
    intro d
    obtain ⟨vid, vd⟩ := a
    simp only [add_driver_variables]
    rcases vd.handle with _ | h
    · exact ih d
    · rcases hlk : lookup d.vars vid with _ | vs
      · simpa using ih _
      · simpa using ih _

/-- Registered variables only grow: an existing variable survives with all
its handles (new ones may be appended). -/
theorem add_driver_variables_mono (l : List (String × VarData V)) :
    ∀ (d : DriverStructure V) (vid : String) (vs : VariableStructure V),
      lookup d.vars vid = some vs →
      ∃ vs', lookup (add_driver_variables d l).1.vars vid = some vs' ∧
        ∀ h0 ∈ vs.handlers, h0 ∈ vs'.handlers := by
  induction l with
  | nil => intro d vid vs h; exact ⟨vs, h, fun _ hm => hm⟩
  | cons a rest ih =>
    intro d vid vs h
    obtain ⟨avid, avd⟩ := a
    simp only [add_driver_variables]
    rcases avd.handle with _ | ah
    · exact ih d vid vs h
    · rcases hlk : lookup d.vars avid with _ | avs
      · by_cases he : avid = vid
        · subst he
          rw [h] at hlk
          cases hlk
        · simp only
          refine ih _ vid vs ?_
          simp only
          rw [lookup_setKey_ne _ _ (fun hv => he hv.symm)]
          exact h
      · by_cases he : avid = vid
        · subst he
          rw [h] at hlk
          injection hlk with hlk
          subst hlk
          simp only
          obtain ⟨vs', hvs', hsub⟩ := ih
            { d with vars := setKey d.vars avid (varAddHandle vs ah) } avid
            (varAddHandle vs ah) (lookup_setKey_self _ _ _)
          refine ⟨vs', hvs', fun h0 hm => hsub h0 ?_⟩
          simp [varAddHandle, hm]
        · simp only
          refine ih _ vid vs ?_
          simp only
          rw [lookup_setKey_ne _ _ (fun hv => he hv.symm)]
          exact h

/-- Variable registration never creates an empty handler list. -/
theorem add_driver_variables_nonempty (l : List (String × VarData V)) :
    ∀ d : DriverStructure V, (∀ q ∈ d.vars, q.2.handlers ≠ []) →
      ∀ q ∈ (add_driver_variables d l).1.vars, q.2.handlers ≠ [] := by
  induction l with
  | nil => intro d hd; exact hd
  | cons a rest ih =>
    intro d hd
    obtain ⟨avid, avd⟩ := a
    simp only [add_driver_variables]
    rcases avd.handle with _ | ah
    · exact ih d hd
    · rcases hlk : lookup d.vars avid with _ | avs
      · simp only
        refine ih _ ?_
        intro q hq
        simp only at hq
        rcases mem_setKey hq with h' | h'
        · exact hd q h'
        · rw [h']
          simp
      · simp only
        refine ih _ ?_
        intro q hq
        simp only at hq
        rcases mem_setKey hq with h' | h'
        · exact hd q h'
        · rw [h']
          simp [varAddHandle]

/-- Every handle-index delta entry produced by variable registration names
this driver and a variable of the resulting record that carries the
handle. -/
theorem add_driver_variables_res (l : List (String × VarData V)) :
    ∀ (d : DriverStructure V) (e : String × String × String),
      e ∈ (add_driver_variables d l).2.1 →
      e.2.2 = d.name ∧
        ∃ vs', lookup (add_driver_variables d l).1.vars e.2.1 = some vs' ∧
          e.1 ∈ vs'.handlers := by
  induction l with
  | nil => intro d e h; simp [add_driver_variables] at h
  | cons a rest ih =>
    intro d e h
    obtain ⟨avid, avd⟩ := a
    simp only [add_driver_variables] at h ⊢
    rcases hvh : avd.handle with _ | ah
    · simp only [hvh] at h ⊢
      exact ih d e h
    · simp only [hvh] at h ⊢
      rcases hlk : lookup d.vars avid with _ | avs
      · simp only [hlk] at h ⊢
        rcases List.mem_cons.1 h with h' | h'
        · subst h'
          refine ⟨rfl, ?_⟩
          obtain ⟨vs', hvs', hsub⟩ := add_driver_variables_mono rest
            (⟨d.class_name, d.name, d.handlers, d.parameters,
              setKey d.vars avid ⟨[ah], avd, none, "", 0, 0⟩, d.status, d.info,
              d.info_log, d.latency, d.pipe, d.updates⟩ : DriverStructure V) avid
            (⟨[ah], avd, none, "", 0, 0⟩ : VariableStructure V)
            (lookup_setKey_self _ _ _)
          exact ⟨vs', hvs', hsub ah (by simp)⟩
        · obtain ⟨he, hrest⟩ := ih _ e h'
          exact ⟨he, hrest⟩
      · simp only [hlk] at h ⊢
        rcases List.mem_cons.1 h with h' | h'
        · subst h'
          refine ⟨rfl, ?_⟩
          obtain ⟨vs', hvs', hsub⟩ := add_driver_variables_mono rest
            (⟨d.class_name, d.name, d.handlers, d.parameters,
              setKey d.vars avid (varAddHandle avs ah), d.status, d.info,
              d.info_log, d.latency, d.pipe, d.updates⟩ : DriverStructure V) avid
            (varAddHandle avs ah) (lookup_setKey_self _ _ _)
          exact ⟨vs', hvs', hsub ah (by simp [varAddHandle])⟩
        · obtain ⟨he, hrest⟩ := ih _ e h'
          exact ⟨he, hrest⟩

/-- A successfully started driver is exactly the record built by
`DriverStructure.__init__` from the request. -/
theorem start_driver_spec {c : Nat} {h : String} {dd : DriverData V}
    {nd : DriverStructure V} (hs : start_driver c h dd = some nd) :
    nd = ⟨ddClass dd, mkDriverName c, [h], (ddSetup dd).parameters, [], none,
      "", [], "", true, []⟩ := by
  unfold start_driver at hs
  split at hs
  · injection hs with hs
    exact hs.symm
  · cases hs

/-- One `setup_drivers` loop iteration preserves the manager invariant
and the running flag. -/
theorem setup_one_inv {s s' : DMState V} {h : String} {dd : DriverData V} {r : String}
    (hinv : manager_inv s) (hso : setup_one s h dd = some (s', r)) :
    manager_inv s' ∧ s'.running = s.running := by
  obtain ⟨hnames, hkeys, hstruct, hhinv⟩ := hinv
  rcases hfind : find_compatible_driver dd s.drivers with _ | op
  · rw [setup_one, hfind] at hso
    cases hso
  rcases op with _ | ⟨n, d⟩
  · -- no compatible driver: try to start one
    rcases hstart : start_driver (s.driver_counter + 1) h dd with _ | nd
    · simp only [setup_one, hfind, hstart] at hso
      injection hso with hso0
      injection hso0 with hs1 hs2
      subst hs1
      exact ⟨⟨hnames, hkeys, hstruct, hhinv⟩, rfl⟩
    · obtain rfl := start_driver_spec hstart
      simp only [setup_one, hfind, hstart] at hso
      injection hso with hso0
      injection hso0 with hs1 hs2
      have hfresh := fresh_name_not_mem hnames
      have hlknone : lookup s.drivers (mkDriverName (s.driver_counter + 1)) = none :=
        lookup_none_of_not_mem hfresh
      have happ : setKey s.drivers (mkDriverName (s.driver_counter + 1))
          (add_driver_variables ⟨ddClass dd, mkDriverName (s.driver_counter + 1),
            [h], (ddSetup dd).parameters, [], none, "", [], "", true, []⟩
            (ddVariables dd)).1 =
          s.drivers ++ [(mkDriverName (s.driver_counter + 1),
            (add_driver_variables ⟨ddClass dd, mkDriverName (s.driver_counter + 1),
              [h], (ddSetup dd).parameters, [], none, "", [], "", true, []⟩
              (ddVariables dd)).1)] := setKey_of_lookup_none hlknone _
      obtain ⟨hf1, hf2, hf3, hf4, hf5, hf6, hf7, hf8⟩ :=
        add_driver_variables_fields (ddVariables dd)
          (⟨ddClass dd, mkDriverName (s.driver_counter + 1), [h],
            (ddSetup dd).parameters, [], none, "", [], "", true, []⟩ : DriverStructure V)
      subst hs1
      refine ⟨⟨?_, ?_, ?_, ?_⟩, rfl⟩
      · -- names_ok
        obtain ⟨ks, hksnd, hksb, hksm⟩ := hnames
        refine ⟨ks ++ [s.driver_counter + 1], ?_, ?_, ?_⟩
        · rw [List.nodup_append]
          refine ⟨hksnd, List.nodup_singleton _, ?_⟩
          intro k hk
          simp only [List.mem_singleton]
          have := hksb k hk
          omega
        · intro k hk
          rcases List.mem_append.1 hk with h' | h'
          · have := hksb k h'
            simp only
            omega
          · simp only [List.mem_singleton] at h'
            simp only
            omega
        · simp only [happ, List.map_append, List.map_cons, List.map_nil, hksm,
            List.map_append]
      · -- keys_match
        intro p hp
        simp only [happ] at hp
        rcases List.mem_append.1 hp with h' | h'
        · exact hkeys p h'
        · simp only [List.mem_singleton] at h'
          rw [h']
          exact hf1
      · -- structural_inv
        intro p hp
        simp only [happ] at hp
        rcases List.mem_append.1 hp with h' | h'
        · exact hstruct p h'
        · simp only [List.mem_singleton] at h'
          rw [h']
          refine ⟨by rw [hf4]; simp, by rw [hf6]; simp, ?_⟩
          exact add_driver_variables_nonempty (ddVariables dd) _ (by intro q hq; cases hq)
      · -- handle_inv
        intro hrun h0 v0 n0 hl0
        have hrun0 : s.running = true := hrun
        rcases lookup_updMerge_cases hl0 with hold | hnew
        · obtain ⟨d0, hd0, vs0, hvs0, hh0⟩ := hhinv hrun0 h0 v0 n0 hold
          refine ⟨d0, ?_, vs0, hvs0, hh0⟩
          show lookup (setKey s.drivers _ _) n0 = some d0
          rw [happ]
          exact lookup_append_of_some hd0 _
        · obtain ⟨he2, vs', hvs', hh0⟩ := add_driver_variables_res (ddVariables dd) _
            (h0, v0, n0) hnew
          simp only at he2
          refine ⟨_, ?_, vs', hvs', hh0⟩
          show lookup (setKey s.drivers _ _) n0 = _
          rw [happ, lookup_append_of_none (by rw [he2]; exact hlknone) _]
          simp [lookup, he2]
  · -- compatible driver found: reuse it
    simp only [setup_one, hfind] at hso
    injection hso with hso0
    injection hso0 with hs1 hs2
    have hmem : (n, d) ∈ s.drivers := find_compatible_mem hfind
    have hnd := names_nodup hnames
    have hlk : lookup s.drivers n = some d := lookup_of_mem_nodup hnd hmem
    have hname : d.name = n := hkeys (n, d) hmem
    obtain ⟨hf1, hf2, hf3, hf4, hf5, hf6, hf7, hf8⟩ :=
      add_driver_variables_fields (ddVariables dd) (add_handle d h)
    have hlkSome : (lookup s.drivers n).isSome = true := by simp [hlk]
    subst hs1
    refine ⟨⟨?_, ?_, ?_, ?_⟩, rfl⟩
    · -- names_ok
      obtain ⟨ks, hksnd, hksb, hksm⟩ := hnames
      exact ⟨ks, hksnd, hksb, by
        show (setKey s.drivers n _).map Prod.fst = _
        rw [map_fst_setKey_of_isSome hlkSome]
        exact hksm⟩
    · -- keys_match
      intro p hp
      rcases mem_setKey hp with h' | h'
      · exact hkeys p h'
      · rw [h']
        show _ = n
        rw [hf1]
        show (add_handle d h).name = n
        exact hname
    · -- structural_inv
      intro p hp
      rcases mem_setKey hp with h' | h'
      · exact hstruct p h'
      · rw [h']
        obtain ⟨hsd1, hsd2, hsd3⟩ := hstruct (n, d) hmem
        refine ⟨by rw [hf4]; show d.handlers ++ [h] ≠ []; simp, by rw [hf6]; exact hsd2, ?_⟩
        exact add_driver_variables_nonempty (ddVariables dd) _ hsd3
    · -- handle_inv
      intro hrun h0 v0 n0 hl0
      have hrun0 : s.running = true := hrun
      rcases lookup_updMerge_cases hl0 with hold | hnew
      · obtain ⟨d0, hd0, vs0, hvs0, hh0⟩ := hhinv hrun0 h0 v0 n0 hold
        by_cases hn0 : n0 = n
        · subst hn0
          rw [hlk] at hd0
          injection hd0 with hd0
          subst hd0
          obtain ⟨vs', hvs', hsub⟩ := add_driver_variables_mono (ddVariables dd)
            (add_handle d h) v0 vs0 hvs0
          refine ⟨_, ?_, vs', hvs', hsub h0 hh0⟩
          show lookup (setKey s.drivers n0 _) n0 = _
          exact lookup_setKey_self _ _ _
        · refine ⟨d0, ?_, vs0, hvs0, hh0⟩
          show lookup (setKey s.drivers n _) n0 = some d0
          rw [lookup_setKey_ne _ _ hn0]
          exact hd0
      · obtain ⟨he2, vs', hvs', hh0⟩ := add_driver_variables_res (ddVariables dd)
          (add_handle d h) (h0, v0, n0) hnew
        simp only at he2
        have hn0 : n0 = n := by
          rw [he2]
          show (add_handle d h).name = n
          exact hname
        subst hn0
        refine ⟨_, ?_, vs', hvs', hh0⟩
        show lookup (setKey s.drivers n0 _) n0 = _
        exact lookup_setKey_self _ _ _

/-- The whole `SETUP_DRIVERS` loop preserves the manager invariant and the
running flag. -/
theorem setup_drivers_inv {s s' : DMState V} {data : List (String × DriverData V)}
    {res : List (String × String)} (hinv : manager_inv s)
    (hsd : setup_drivers s data = some (s', res)) :
    manager_inv s' ∧ s'.running = s.running := by
  induction data generalizing s res with
  | nil =>
    simp only [setup_drivers] at hsd
    injection hsd with hsd0
    injection hsd0 with h1 h2
    subst h1
    exact ⟨hinv, rfl⟩
  | cons a rest ih =>
    simp only [setup_drivers] at hsd
    split at hsd
    · cases hsd
    · next smid rmid hone =>
      split at hsd
      · cases hsd
      · next send rrest hrest =>
        injection hsd with hsd
        injection hsd with hs1 _
        subst hs1
        obtain ⟨hinv1, hrun1⟩ := setup_one_inv hinv hone
        obtain ⟨hinv2, hrun2⟩ := ih hinv1 hrest
        exact ⟨hinv2, hrun2.trans hrun1⟩

theorem map_fst_map_value {α β : Type} (g : α → β) (l : List (String × α)) :
    (l.map fun p => (p.1, g p.2)).map Prod.fst = l.map Prod.fst := by
  induction l with
  | nil => rfl
  | cons a rest ih => simp [ih]

/-- `clearPending` touches only the pending batch. -/
theorem clearPending_fields (d : DriverStructure V) :
    (clearPending d).name = d.name ∧ (clearPending d).handlers = d.handlers ∧
      (clearPending d).info_log = d.info_log ∧ (clearPending d).vars = d.vars := by
  unfold clearPending
  split
  · exact ⟨rfl, rfl, rfl, rfl⟩
  · exact ⟨rfl, rfl, rfl, rfl⟩

/-- One host-write entry preserves the manager invariant. -/
theorem host_update_one_inv {s s' : DMState V} {h : String} {v : V}
    (hinv : manager_inv s) (hu : host_update_one s h v = some s') :
    manager_inv s' := by
  obtain ⟨hnames, hkeys, hstruct, hhinv⟩ := hinv
  unfold host_update_one at hu
  split at hu
  · injection hu with hu; subst hu; exact ⟨hnames, hkeys, hstruct, hhinv⟩
  · next vid dn _ =>
    split at hu
    · injection hu with hu; subst hu; exact ⟨hnames, hkeys, hstruct, hhinv⟩
    · split at hu
      · cases hu
      · next d0 hld =>
        split at hu
        · split at hu
          · cases hu
          · next vs hlv =>
            split at hu
            · injection hu with hu
              subst hu
              have hd0mem : (dn, d0) ∈ s.drivers := lookup_mem hld
              have hvsmem : (vid, vs) ∈ d0.vars := lookup_mem hlv
              have hlkSome : (lookup s.drivers dn).isSome = true := by simp [hld]
              refine ⟨?_, ?_, ?_, ?_⟩
              · obtain ⟨ks, hksnd, hksb, hksm⟩ := hnames
                exact ⟨ks, hksnd, hksb, by
                  show (setKey s.drivers dn _).map Prod.fst = _
                  rw [map_fst_setKey_of_isSome hlkSome]
                  exact hksm⟩
              · intro p hp
                rcases mem_setKey hp with h' | h'
                · exact hkeys p h'
                · rw [h']
                  exact hkeys (dn, d0) hd0mem
              · intro p hp
                rcases mem_setKey hp with h' | h'
                · exact hstruct p h'
                · rw [h']
                  obtain ⟨hsd1, hsd2, hsd3⟩ := hstruct (dn, d0) hd0mem
                  refine ⟨hsd1, hsd2, ?_⟩
                  intro q hq
                  rcases mem_setKey hq with h'' | h''
                  · exact hsd3 q h''
                  · rw [h'']
                    exact hsd3 (vid, vs) hvsmem
              · intro hrun h0 v0 n0 hl0
                obtain ⟨dA, hdA, vsA, hvsA, hhA⟩ := hhinv hrun h0 v0 n0 hl0
                by_cases hn0 : n0 = dn
                · subst hn0
                  rw [hld] at hdA
                  injection hdA with hdA
                  subst hdA
                  refine ⟨_, lookup_setKey_self _ _ _, ?_⟩
                  by_cases hv0 : v0 = vid
                  · subst hv0
                    rw [hlv] at hvsA
                    injection hvsA with hvsA
                    subst hvsA
                    exact ⟨_, lookup_setKey_self _ _ _, hhA⟩
                  · refine ⟨vsA, ?_, hhA⟩
                    show lookup (setKey _ vid _) v0 = _
                    rw [lookup_setKey_ne _ _ hv0]
                    exact hvsA
                · refine ⟨dA, ?_, vsA, hvsA, hhA⟩
                  show lookup (setKey s.drivers dn _) n0 = _
                  rw [lookup_setKey_ne _ _ hn0]
                  exact hdA
            · injection hu with hu; subst hu; exact ⟨hnames, hkeys, hstruct, hhinv⟩
        · injection hu with hu; subst hu; exact ⟨hnames, hkeys, hstruct, hhinv⟩

theorem host_updates_batch_inv {s s' : DMState V} {batch : List (String × V)}
    (hinv : manager_inv s) (hu : host_updates_batch s batch = some s') :
    manager_inv s' := by
  induction batch generalizing s with
  | nil => injection hu with hu; subst hu; exact hinv
  | cons a rest ih =>
    simp only [host_updates_batch] at hu
    split at hu
    · cases hu
    · next smid h1 =>
      exact ih (host_update_one_inv hinv h1) hu

theorem flush_updates_inv {s : DMState V} (hinv : manager_inv s) :
    manager_inv (flush_updates s) := by
  obtain ⟨hnames, hkeys, hstruct, hhinv⟩ := hinv
  refine ⟨?_, ?_, ?_, ?_⟩
  · obtain ⟨ks, hksnd, hksb, hksm⟩ := hnames
    exact ⟨ks, hksnd, hksb, by
      show (s.drivers.map fun p => (p.1, clearPending p.2)).map Prod.fst = _
      rw [map_fst_map_value]
      exact hksm⟩
  · intro p hp
    obtain ⟨q, hq, hqp⟩ := List.mem_map.1 hp
    rw [← hqp]
    show (clearPending q.2).name = q.1
    rw [(clearPending_fields q.2).1]
    exact hkeys q hq
  · intro p hp
    obtain ⟨q, hq, hqp⟩ := List.mem_map.1 hp
    rw [← hqp]
    obtain ⟨hc1, hc2, hc3, hc4⟩ := clearPending_fields q.2
    obtain ⟨hs1, hs2, hs3⟩ := hstruct q hq
    exact ⟨by rw [hc2]; exact hs1, by rw [hc3]; exact hs2, by rw [hc4]; exact hs3⟩
  · intro hrun h0 v0 n0 hl0
    obtain ⟨dA, hdA, vsA, hvsA, hhA⟩ := hhinv hrun h0 v0 n0 hl0
    refine ⟨clearPending dA, ?_, vsA, ?_, hhA⟩
    · show lookup (s.drivers.map fun p => (p.1, clearPending p.2)) n0 = _
      rw [lookup_map_value, hdA]
      rfl
    · rw [(clearPending_fields dA).2.2.2]
      exact hvsA

/-- Every host command preserves the manager invariant. -/
theorem send_command_inv {s s' : DMState V} {c : HostCmd V} {rep : Option HostReply}
    (hinv : manager_inv s) (hsc : send_command s c = some (s', rep)) :
    manager_inv s' := by
  obtain ⟨hnames, hkeys, hstruct, hhinv⟩ := hinv
  cases c with
  | CLEAN =>
    injection hsc with hsc
    injection hsc with hs1 _
    subst hs1
    refine ⟨⟨[], List.nodup_nil, ?_, rfl⟩, ?_, ?_, ?_⟩
    · intro k hk; cases hk
    · intro p hp; cases hp
    · intro p hp; cases hp
    · intro hrun; cases hrun
  | SETUP_DRIVERS data =>
    simp only [send_command] at hsc
    split at hsc
    · cases hsc
    · next smid res hsd =>
      injection hsc with hsc
      injection hsc with hs1 _
      subst hs1
      exact (setup_drivers_inv ⟨hnames, hkeys, hstruct, hhinv⟩ hsd).1
  | UPDATES data =>
    simp only [send_command] at hsc
    split at hsc
    · cases hsc
    · next smid hb =>
      injection hsc with hsc
      injection hsc with hs1 _
      subst hs1
      exact flush_updates_inv (host_updates_batch_inv ⟨hnames, hkeys, hstruct, hhinv⟩ hb)
  | other t =>
    injection hsc with hsc
    injection hsc with hs1 _
    subst hs1
    exact ⟨hnames, hkeys, hstruct, hhinv⟩

/-- Draining the host frames preserves the manager invariant. -/
theorem process_frames_inv {s s' : DMState V} {frames : List (HostCmd V)}
    {outs : List (OutFrame V)} (hinv : manager_inv s)
    (hp : process_frames s frames = some (s', outs)) : manager_inv s' := by
  induction frames generalizing s outs with
  | nil =>
    injection hp with hp
    injection hp with h1 _
    subst h1
    exact hinv
  | cons c rest ih =>
    simp only [process_frames] at hp
    split at hp
    · cases hp
    · next smid rep hsc =>
      split at hp
      · cases hp
      · next send orest hrest =>
        injection hp with hp
        injection hp with h1 _
        subst h1
        exact ih (send_command_inv hinv hsc) hrest

/-! ### Worker-message lemmas -/

theorem worker_step_ok_refl (d : DriverStructure V) : worker_step_ok d d :=
  ⟨rfl, rfl, rfl, rfl, rfl, id, fun _ vs h => ⟨vs, h, rfl⟩, fun q hq => ⟨q.2, hq, rfl⟩⟩

theorem worker_step_ok_trans {d d' d'' : DriverStructure V}
    (h1 : worker_step_ok d d') (h2 : worker_step_ok d' d'') : worker_step_ok d d'' := by
  obtain ⟨a1, a2, a3, a4, a5, a6, a7, a8⟩ := h1
  obtain ⟨b1, b2, b3, b4, b5, b6, b7, b8⟩ := h2
  refine ⟨b1.trans a1, b2.trans a2, b3.trans a3, b4.trans a4, b5.trans a5,
    fun hl => b6 (a6 hl), ?_, ?_⟩
  · intro vid vs h
    obtain ⟨vs', hvs', he'⟩ := a7 vid vs h
    obtain ⟨vs'', hvs'', he''⟩ := b7 vid vs' hvs'
    exact ⟨vs'', hvs'', he''.trans he'⟩
  · intro q hq
    obtain ⟨vs', hvs', he'⟩ := b8 q hq
    obtain ⟨vs, hvs, he⟩ := a8 (q.1, vs') hvs'
    exact ⟨vs, hvs, he'.trans he⟩

theorem maps_only_step_refl (s : DMState V) : maps_only_step s s :=
  ⟨rfl, rfl, rfl, rfl, rfl, rfl, rfl, rfl⟩

theorem maps_only_step_trans {s s' s'' : DMState V}
    (h1 : maps_only_step s s') (h2 : maps_only_step s' s'') : maps_only_step s s'' := by
  obtain ⟨a1, a2, a3, a4, a5, a6, a7, a8⟩ := h1
  obtain ⟨b1, b2, b3, b4, b5, b6, b7, b8⟩ := h2
  exact ⟨b1.trans a1, b2.trans a2, b3.trans a3, b4.trans a4, b5.trans a5,
    b6.trans a6, b7.trans a7, b8.trans a8⟩

theorem apply_update_entry_ok (d : DriverStructure V) (s : DMState V) (vid : String)
    (v : V) : worker_step_ok d (apply_update_entry d s vid v).1 ∧
      maps_only_step s (apply_update_entry d s vid v).2 := by
  rcases hlv : lookup d.vars vid with _ | vs
  · simp only [apply_update_entry, hlv]
    exact ⟨worker_step_ok_refl d, maps_only_step_refl s⟩
  · by_cases hne : vs.value ≠ some v
    · simp only [apply_update_entry, hlv, if_pos hne]
      constructor
      · refine ⟨rfl, rfl, rfl, rfl, rfl, id, ?_, ?_⟩
        · intro vid0 vs0 h0
          by_cases he : vid0 = vid
          · subst he
            rw [hlv] at h0
            injection h0 with h0
            subst h0
            exact ⟨_, lookup_setKey_self _ _ _, rfl⟩
          · refine ⟨vs0, ?_, rfl⟩
            show lookup (setKey d.vars vid _) vid0 = _
            rw [lookup_setKey_ne _ _ he]
            exact h0
        · intro q hq
          rcases mem_setKey hq with h' | h'
          · exact ⟨q.2, h', rfl⟩
          · rw [h']
            exact ⟨vs, lookup_mem hlv, rfl⟩
      · exact ⟨rfl, rfl, rfl, rfl, rfl, rfl, rfl, rfl⟩
    · simp only [apply_update_entry, hlv, if_neg hne]
      exact ⟨worker_step_ok_refl d, maps_only_step_refl s⟩

theorem apply_update_fold_ok (vals : List (String × V)) :
    ∀ (d : DriverStructure V) (s : DMState V),
      worker_step_ok d (vals.foldl (fun p q => apply_update_entry p.1 p.2 q.1 q.2) (d, s)).1 ∧
      maps_only_step s (vals.foldl (fun p q => apply_update_entry p.1 p.2 q.1 q.2) (d, s)).2 := by
  induction vals with
  | nil => intro d s; exact ⟨worker_step_ok_refl d, maps_only_step_refl s⟩
  | cons a rest ih =>
    intro d s
    rw [List.foldl_cons]
    obtain ⟨h1, h2⟩ := apply_update_entry_ok d s a.1 a.2
    obtain ⟨h3, h4⟩ := ih (apply_update_entry d s a.1 a.2).1 (apply_update_entry d s a.1 a.2).2
    exact ⟨worker_step_ok_trans h1 h3, maps_only_step_trans h2 h4⟩

theorem apply_worker_msg_ok (d : DriverStructure V) (s : DMState V) (m : WorkerMsg V) :
    worker_step_ok d (apply_worker_msg d s m).1 ∧
      maps_only_step s (apply_worker_msg d s m).2 := by
  cases m with
  | STATUS st =>
    by_cases hst : d.status ≠ some st
    · simp only [apply_worker_msg, if_pos hst]
      exact ⟨⟨rfl, rfl, rfl, rfl, rfl, id, fun _ vs h => ⟨vs, h, rfl⟩,
        fun q hq => ⟨q.2, hq, rfl⟩⟩, ⟨rfl, rfl, rfl, rfl, rfl, rfl, rfl, rfl⟩⟩
    · simp only [apply_worker_msg, if_neg hst]
      exact ⟨worker_step_ok_refl d, maps_only_step_refl s⟩
  | INFO text =>
    by_cases hlat : hasLatency text
    · simp only [apply_worker_msg, if_pos hlat]
      exact ⟨⟨rfl, rfl, rfl, rfl, rfl, id, fun _ vs h => ⟨vs, h, rfl⟩,
        fun q hq => ⟨q.2, hq, rfl⟩⟩, maps_only_step_refl s⟩
    · simp only [apply_worker_msg, if_neg hlat]
      constructor
      · refine ⟨rfl, rfl, rfl, rfl, rfl, ?_, fun _ vs h => ⟨vs, h, rfl⟩,
          fun q hq => ⟨q.2, hq, rfl⟩⟩
        intro hlen
        show (if (d.info_log ++ [text]).length > 5
          then (d.info_log ++ [text]).drop ((d.info_log ++ [text]).length - 5)
          else d.info_log ++ [text]).length ≤ 5
        split
        · next hgt =>
          rw [List.length_drop]
          omega
        · next hle =>
          rw [List.length_append] at hle ⊢
          simp only [List.length_cons, List.length_nil] at hle ⊢
          omega
      · exact ⟨rfl, rfl, rfl, rfl, rfl, rfl, rfl, rfl⟩
  | VAR_INFO msg vid =>
    rcases hlv : lookup d.vars vid with _ | vs
    · simp only [apply_worker_msg, hlv]
      exact ⟨worker_step_ok_refl d, maps_only_step_refl s⟩
    · by_cases hinf : vs.info ≠ msg
      · simp only [apply_worker_msg, hlv, if_pos hinf]
        constructor
        · refine ⟨rfl, rfl, rfl, rfl, rfl, id, ?_, ?_⟩
          · intro vid0 vs0 h0
            by_cases he : vid0 = vid
            · subst he
              rw [hlv] at h0
              injection h0 with h0
              subst h0
              exact ⟨_, lookup_setKey_self _ _ _, rfl⟩
            · refine ⟨vs0, ?_, rfl⟩
              show lookup (setKey d.vars vid _) vid0 = _
              rw [lookup_setKey_ne _ _ he]
              exact h0
          · intro q hq
            rcases mem_setKey hq with h' | h'
            · exact ⟨q.2, h', rfl⟩
            · rw [h']
              exact ⟨vs, lookup_mem hlv, rfl⟩
        · exact ⟨rfl, rfl, rfl, rfl, rfl, rfl, rfl, rfl⟩
      · simp only [apply_worker_msg, hlv, if_neg hinf]
        exact ⟨worker_step_ok_refl d, maps_only_step_refl s⟩
  | UPDATE vals => exact apply_update_fold_ok vals d s
  | other t => exact ⟨worker_step_ok_refl d, maps_only_step_refl s⟩

theorem drain_driver_ok (msgs : List (WorkerMsg V)) :
    ∀ (d : DriverStructure V) (s : DMState V),
      worker_step_ok d (drain_driver d s msgs).1 ∧
        maps_only_step s (drain_driver d s msgs).2 := by
  induction msgs with
  | nil => intro d s; exact ⟨worker_step_ok_refl d, maps_only_step_refl s⟩
  | cons m rest ih =>
    intro d s
    simp only [drain_driver]
    obtain ⟨h1, h2⟩ := apply_worker_msg_ok d s m
    obtain ⟨h3, h4⟩ := ih (apply_worker_msg d s m).1 (apply_worker_msg d s m).2
    exact ⟨worker_step_ok_trans h1 h3, maps_only_step_trans h2 h4⟩

theorem drain_all_ok (inbox : List (String × List (WorkerMsg V))) (cap : Nat) :
    ∀ (l : List (String × DriverStructure V)) (s : DMState V),
      maps_only_step s (drain_all inbox cap l s).2 ∧
      (∀ n0 d0, lookup l n0 = some d0 →
        ∃ d0', lookup (drain_all inbox cap l s).1 n0 = some d0' ∧ worker_step_ok d0 d0') ∧
      (∀ q ∈ (drain_all inbox cap l s).1, ∃ d0, (q.1, d0) ∈ l ∧ worker_step_ok d0 q.2) ∧
      (drain_all inbox cap l s).1.map Prod.fst = l.map Prod.fst := by
  intro l
  induction l with
  | nil =>
    intro s
    refine ⟨maps_only_step_refl s, ?_, ?_, rfl⟩
    · intro n0 d0 h; cases h
    · intro q hq; cases hq
  | cons a rest ih =>
    intro s
    obtain ⟨n, d⟩ := a
    simp only [drain_all]
    obtain ⟨hd1, hd2⟩ := drain_driver_ok (((lookup inbox n).getD []).take cap) d s
    obtain ⟨hi1, hi2, hi3, hi4⟩ :=
      ih (drain_driver d s (((lookup inbox n).getD []).take cap)).2
    refine ⟨maps_only_step_trans hd2 hi1, ?_, ?_, ?_⟩
    · intro n0 d0 h0
      simp only [lookup] at h0
      by_cases hn0 : n = n0
      · rw [if_pos hn0] at h0
        injection h0 with h0
        subst h0
        refine ⟨_, ?_, hd1⟩
        simp [lookup, hn0]
      · rw [if_neg hn0] at h0
        obtain ⟨d0', hl', hok'⟩ := hi2 n0 d0 h0
        refine ⟨d0', ?_, hok'⟩
        simp only [lookup, if_neg hn0]
        exact hl'
    · intro q hq
      rcases List.mem_cons.1 hq with h' | h'
      · rw [h']
        exact ⟨d, List.mem_cons_self _ _, hd1⟩
      · obtain ⟨d0, hm, hok⟩ := hi3 q h'
        exact ⟨d0, List.mem_cons_of_mem _ hm, hok⟩
    · simp only [List.map_cons, hi4]

/-- The state `run_once` returns: drained drivers, otherwise the drained
state's registry-relevant fields. -/
theorem run_once_fields (s : DMState V) (inbox : List (String × List (WorkerMsg V)))
    (cap now : Nat) :
    (run_once s inbox cap now).1.drivers = (drain_all inbox cap s.drivers s).1 ∧
    (run_once s inbox cap now).1.driver_counter =
      (drain_all inbox cap s.drivers s).2.driver_counter ∧
    (run_once s inbox cap now).1.handles = (drain_all inbox cap s.drivers s).2.handles ∧
    (run_once s inbox cap now).1.running = (drain_all inbox cap s.drivers s).2.running := by
  simp only [run_once]
  by_cases hc : now - (drain_all inbox cap s.drivers s).2.last_status_record ≥ 1
  · rw [if_pos hc]
    exact ⟨rfl, rfl, rfl, rfl⟩
  · rw [if_neg hc]
    exact ⟨rfl, rfl, rfl, rfl⟩

/-- `run_once` preserves the manager invariant and the running flag. -/
theorem run_once_inv {s : DMState V} {inbox : List (String × List (WorkerMsg V))}
    {cap now : Nat} (hinv : manager_inv s) :
    manager_inv (run_once s inbox cap now).1 ∧
      (run_once s inbox cap now).1.running = s.running := by
  obtain ⟨hnames, hkeys, hstruct, hhinv⟩ := hinv
  obtain ⟨hm, hlk, hmem, hns⟩ := drain_all_ok inbox cap s.drivers s
  obtain ⟨q1, q2, q3, q4, q5, q6, q7, q8⟩ := hm
  obtain ⟨f1, f2, f3, f4⟩ := run_once_fields s inbox cap now
  refine ⟨⟨?_, ?_, ?_, ?_⟩, by rw [f4, q4]⟩
  · obtain ⟨ks, hksnd, hksb, hksm⟩ := hnames
    exact ⟨ks, hksnd, by rw [f2, q2]; exact hksb, by rw [f1, hns]; exact hksm⟩
  · intro p hp
    rw [f1] at hp
    obtain ⟨d0, hm0, hok0⟩ := hmem p hp
    rw [hok0.1]
    exact hkeys (p.1, d0) hm0
  · intro p hp
    rw [f1] at hp
    obtain ⟨d0, hm0, hok0⟩ := hmem p hp
    obtain ⟨hs1, hs2, hs3⟩ := hstruct (p.1, d0) hm0
    refine ⟨by rw [hok0.2.2.2.1]; exact hs1, hok0.2.2.2.2.2.1 hs2, ?_⟩
    intro q hq
    obtain ⟨vsb, hvsb, heb⟩ := hok0.2.2.2.2.2.2.2 q hq
    rw [heb]
    exact hs3 (q.1, vsb) hvsb
  · intro hrun h0 v0 n0 hl0
    rw [f3, q3] at hl0
    rw [f4, q4] at hrun
    obtain ⟨dA, hdA, vsA, hvsA, hhA⟩ := hhinv hrun h0 v0 n0 hl0
    obtain ⟨dA', hdA', hokA⟩ := hlk n0 dA hdA
    obtain ⟨vsA', hvsA', heA⟩ := hokA.2.2.2.2.2.2.1 v0 vsA hvsA
    refine ⟨dA', ?_, vsA', hvsA', heA ▸ hhA⟩
    rw [f1]
    exact hdA'

/-- The emission block only clears coalescing maps. -/
theorem emit_frames_fields (s : DMState V) :
    (emit_frames s).1.drivers = s.drivers ∧
      (emit_frames s).1.driver_counter = s.driver_counter ∧
      (emit_frames s).1.handles = s.handles ∧
      (emit_frames s).1.running = s.running := by
  unfold emit_frames
  dsimp only
  split <;> split <;> split <;> split <;> split <;> exact ⟨rfl, rfl, rfl, rfl⟩

/-- The manager invariant only depends on the registry, the counter, the
handle index and the running flag. -/
theorem manager_inv_of_fields {s s' : DMState V} (hinv : manager_inv s)
    (hd : s'.drivers = s.drivers) (hc : s'.driver_counter = s.driver_counter)
    (hh : s'.handles = s.handles) (hr : s'.running = s.running) : manager_inv s' := by
  obtain ⟨⟨ks, hksnd, hksb, hksm⟩, hkeys, hstruct, hhinv⟩ := hinv
  refine ⟨⟨ks, hksnd, by rw [hc]; exact hksb, by rw [hd]; exact hksm⟩, ?_, ?_, ?_⟩
  · intro p hp
    exact hkeys p (hd ▸ hp)
  · intro p hp
    exact hstruct p (hd ▸ hp)
  · intro hrun h0 v0 n0 hl0
    rw [hh] at hl0
    obtain ⟨dA, hdA, rest⟩ := hhinv (hr ▸ hrun) h0 v0 n0 hl0
    exact ⟨dA, by rw [hd]; exact hdA, rest⟩

/-- One `run_forever` iteration preserves the manager invariant. -/
theorem cycle_inv {s s' : DMState V} {host : List (HostCmd V)}
    {inbox : List (String × List (WorkerMsg V))} {now : Nat} {outs : List (OutFrame V)}
    (hinv : manager_inv s) (hc : cycle s host inbox now = some (s', outs)) :
    manager_inv s' := by
  unfold cycle at hc
  split at hc
  · cases hc
  · next s1 outs1 hpf =>
    have hinv1 : manager_inv s1 := process_frames_inv hinv hpf
    split at hc
    · split at hc
      · injection hc with hc
        injection hc with h1 _
        subst h1
        obtain ⟨hinv2, _⟩ := @run_once_inv V _ s1 inbox 10 now hinv1
        obtain ⟨e1, e2, e3, e4⟩ := emit_frames_fields (run_once s1 inbox 10 now).1
        exact manager_inv_of_fields hinv2 e1 e2 e3 e4
      · injection hc with hc
        injection hc with h1 _
        subst h1
        exact (@run_once_inv V _ s1 inbox 10 now hinv1).1
    · injection hc with hc
      injection hc with h1 _
      subst h1
      exact hinv1

/-- Every reachable manager state satisfies the inductive invariant. -/
theorem reachable_inv {s : DMState V} (hr : Reachable s) : manager_inv s := by
  induction hr with
  | init =>
    refine ⟨⟨[], List.nodup_nil, ?_, rfl⟩, ?_, ?_, ?_⟩
    · intro k hk; cases hk
    · intro p hp; cases hp
    · intro p hp; cases hp
    · intro _ h0 v0 n0 hl0
      simp [initState, lookup] at hl0
  | step host inbox now outs _ _ hc ih => exact cycle_inv ih hc

/-- The provisioned state `sEx1` is reachable in one cycle from the
initial state. -/
theorem reachable_sEx1 : Reachable sEx1 :=
  Reachable.step [.SETUP_DRIVERS [("h1", udpData)]] [] 0
    [OutFrame.reply HostTag.SETUP_DRIVERS (HostReply.results [("h1", "SUCCESS")])]
    Reachable.init rfl (by decide)

/-! ### Claim C2: the handle-index invariant -/

/-- C2 (counterexample): the claimed two-way invariant fails on a
reachable state.  Submitting `udpData` (variable `x`, handle `vh1`) and
then the incompatible `s7Data` (variable `y`, same handle string `vh1`)
leaves `vh1 ∈ x.handlers` on the live `DRIVER_1`, while the handle index
maps `vh1` to `("y", "DRIVER_2")` — the right-to-left reading of the iff
is violated. -/
theorem c2_counterexample : Reachable sC2cex ∧ ¬ claimed_handle_inv sC2cex := by
  constructor
  · exact Reachable.step
      [.SETUP_DRIVERS [("h1", udpData)], .SETUP_DRIVERS [("h2", s7Data)]] [] 0
      [OutFrame.reply HostTag.SETUP_DRIVERS (HostReply.results [("h1", "SUCCESS")]),
       OutFrame.reply HostTag.SETUP_DRIVERS (HostReply.results [("h2", "SUCCESS")])]
      Reachable.init rfl (by decide)
  · intro hinv
    have h2 := (hinv "vh1" "x" "DRIVER_1").mpr
      ⟨dEx1, by decide,
       ⟨["vh1"], vdX, none, "", 0, 0⟩, by decide, by decide⟩
    exact absurd h2 (by decide)

/-- C2 (amended): in every reachable state in which the manager is still
running (no `CLEAN` processed yet), the handle index is sound: every entry
`h ↦ (v, d)` resolves to a live driver `d` holding a variable `v` whose
handlers contain `h`.  The converse inclusion of the claimed iff does not
hold (see the counterexample), and after `CLEAN` even soundness fails
since the index is not cleared. -/
theorem c2_handle_index_sound (s : DMState V) (hr : Reachable s)
    (hrun : s.running = true) : handle_inv s :=
  (reachable_inv hr).2.2.2 hrun

/-- C2 (witness): the amended invariant at the concrete reachable state
`sEx1`. -/
theorem c2_handle_index_sound_witness : handle_inv sEx1 :=
  c2_handle_index_sound sEx1 reachable_sEx1 (by decide)

/-! ### Claim C3: structural invariants of the registries -/

/-- `DRIVER_1` of `sC3cex`: the same handle appended twice, both at the
driver and at its variable. -/
def dC3 : DriverStructure Int :=
  { dEx1 with handlers := ["h1", "h1"]
              vars := [("x", ⟨["vh1", "vh1"], vdX, none, "", 0, 0⟩)] }

/-- C3 (counterexample): handler lists are not duplicate-free on a
reachable state: re-sending the same spec under the same driver handle
`h1` appends `h1` (and the variable handle `vh1`) a second time. -/
theorem c3_counterexample : Reachable sC3cex ∧ ¬ claimed_structural_inv sC3cex := by
  constructor
  · exact Reachable.step
      [.SETUP_DRIVERS [("h1", udpData)], .SETUP_DRIVERS [("h1", udpData)]] [] 0
      [OutFrame.reply HostTag.SETUP_DRIVERS (HostReply.results [("h1", "SUCCESS")]),
       OutFrame.reply HostTag.SETUP_DRIVERS (HostReply.results [("h1", "SUCCESS")]),
       OutFrame.STATUS [("h1", none)]]
      Reachable.init rfl (by decide)
  · intro hs
    have hmem : (("DRIVER_1" : String), dC3) ∈ sC3cex.drivers := by decide
    have hnd := (hs ("DRIVER_1", dC3) hmem).2.1
    exact absurd hnd (by decide)

/-- C3 (amended): in every reachable state, every driver's handler list
and every variable's handler list is non-empty and every driver's
`info_log` has length at most 5; duplicate handler entries, however, are
reachable (see the counterexample), so uniqueness is dropped. -/
theorem c3_structural (s : DMState V) (hr : Reachable s) : structural_inv s :=
  (reachable_inv hr).2.2.1

/-- C3 (witness): the amended structural invariant at the concrete
reachable state `sEx1`. -/
theorem c3_structural_witness : structural_inv sEx1 :=
  c3_structural sEx1 reachable_sEx1

/-! ### Claim C4: idempotent provisioning -/

/-- A duplicate-free parameter map is compatible with itself. -/
theorem checkParams_self {ps : List (String × V)} (hnd : (ps.map Prod.fst).Nodup) :
    checkParams ps ps = true :=
  (checkParams_iff hnd).2 fun _ _ _ => rfl

/-- An exhausted scan judged every driver incompatible. -/
theorem find_all_false {dd : DriverData V} :
    ∀ {l : List (String × DriverStructure V)},
      find_compatible_driver dd l = some none →
      ∀ p ∈ l, is_compatible p.2 dd = some false := by
  intro l
  induction l with
  | nil => intro _ p hp; cases hp
  | cons a rest ih =>
    intro hf p hp
    simp only [find_compatible_driver] at hf
    rcases hcomp : is_compatible a.2 dd with _ | b
    · rw [hcomp] at hf; cases hf
    · rcases b with _ | _
      · rw [hcomp] at hf
        rcases List.mem_cons.1 hp with h' | h'
        · rw [h']; exact hcomp
        · exact ih hf p h'
      · rw [hcomp] at hf
        injection hf with hf
        cases hf

/-- A scan skips a prefix of incompatible drivers. -/
theorem find_append_all_false {dd : DriverData V} {pre : List (String × DriverStructure V)}
    (hall : ∀ p ∈ pre, is_compatible p.2 dd = some false)
    (rest : List (String × DriverStructure V)) :
    find_compatible_driver dd (pre ++ rest) = find_compatible_driver dd rest := by
  induction pre with
  | nil => rfl
  | cons a tl ih =>
    have hha : is_compatible a.2 dd = some false := hall a (List.mem_cons_self a tl)
    simp only [List.cons_append, find_compatible_driver, hha]
    exact ih fun p hp => hall p (List.mem_cons_of_mem a hp)

/-- Compatibility depends only on the class name and the parameters. -/
theorem is_compatible_congr {d d' : DriverStructure V} (dd : DriverData V)
    (hcls : d'.class_name = d.class_name) (hpar : d'.parameters = d.parameters) :
    is_compatible d' dd = is_compatible d dd := by
  unfold is_compatible
  rw [hcls, hpar]

/-- The name/class/parameters relation is reflexive on any registry. -/
theorem forall₂_compat_refl :
    ∀ l : List (String × DriverStructure V),
      List.Forall₂ (fun p q : String × DriverStructure V =>
        p.1 = q.1 ∧ q.2.class_name = p.2.class_name ∧ q.2.parameters = p.2.parameters) l l := by
  intro l
  induction l with
  | nil => exact List.Forall₂.nil
  | cons a rest ih => exact List.Forall₂.cons ⟨rfl, rfl, rfl⟩ ih

/-- Replacing one driver by a record with the same class and parameters
relates the two registries pointwise. -/
theorem setKey_forall₂ {l : List (String × DriverStructure V)} {n : String}
    {d d' : DriverStructure V} (hlk : lookup l n = some d)
    (hcls : d'.class_name = d.class_name) (hpar : d'.parameters = d.parameters) :
    List.Forall₂ (fun p q : String × DriverStructure V =>
      p.1 = q.1 ∧ q.2.class_name = p.2.class_name ∧ q.2.parameters = p.2.parameters)
      l (setKey l n d') := by
  induction l with
  | nil => cases hlk
  | cons a rest ih =>
    by_cases hak : a.1 = n
    · simp only [lookup, if_pos hak] at hlk
      injection hlk with hlk
      simp only [setKey, if_pos hak]
      refine List.Forall₂.cons ⟨hak, ?_, ?_⟩ (forall₂_compat_refl rest)
      · rw [hcls, ← hlk]
      · rw [hpar, ← hlk]
    · simp only [lookup, if_neg hak] at hlk
      simp only [setKey, if_neg hak]
      exact List.Forall₂.cons ⟨rfl, rfl, rfl⟩ (ih hlk)

/-- Pointwise-related registries behave alike under the resolver: an
exhausted scan stays exhausted, and a hit reports the same driver name. -/
theorem find_congr {dd : DriverData V} {l l' : List (String × DriverStructure V)}
    (hf : List.Forall₂ (fun p q : String × DriverStructure V =>
      p.1 = q.1 ∧ q.2.class_name = p.2.class_name ∧ q.2.parameters = p.2.parameters) l l') :
    (find_compatible_driver dd l = some none → find_compatible_driver dd l' = some none) ∧
    (∀ n d, find_compatible_driver dd l = some (some (n, d)) →
      ∃ d', find_compatible_driver dd l' = some (some (n, d'))) := by
  induction hf with
  | nil =>
    refine ⟨fun h => h, fun n d h => ?_⟩
    injection h with h
    cases h
  | cons hpq htail ih =>
    next a b l₁ l₂ =>
    obtain ⟨he1, he2, he3⟩ := hpq
    have hcomp : is_compatible b.2 dd = is_compatible a.2 dd := is_compatible_congr dd he2 he3
    constructor
    · intro h
      simp only [find_compatible_driver] at h ⊢
      rw [hcomp]
      rcases hca : is_compatible a.2 dd with _ | bb
      · rw [hca] at h; cases h
      · rcases bb with _ | _
        · rw [hca] at h
          exact ih.1 h
        · rw [hca] at h
          injection h with h
          cases h
    · intro n d h
      simp only [find_compatible_driver] at h ⊢
      rw [hcomp]
      rcases hca : is_compatible a.2 dd with _ | bb
      · rw [hca] at h; cases h
      · rcases bb with _ | _
        · rw [hca] at h
          exact ih.2 n d h
        · rw [hca] at h
          injection h with h
          injection h with h
          have ha1 : a.1 = n := congrArg Prod.fst h
          refine ⟨b.2, ?_⟩
          show some (some (b.1, b.2)) = some (some (n, b.2))
          rw [he1.symm.trans ha1]

/-- A never-registered class fails `start_driver` for any handle and
counter. -/
theorem start_driver_none_congr {dd : DriverData V} {c : Nat} {h : String}
    (hs : start_driver (V := V) c h dd = none) (c' : Nat) (h' : String) :
    start_driver (V := V) c' h' dd = none := by
  by_cases hreg : ddClass dd ∈ registered_driver_names
  · rw [start_driver, if_pos hreg] at hs
    cases hs
  · rw [start_driver, if_neg hreg]

/-- Unpacks a single-entry `SETUP_DRIVERS` command into its one
`setup_one` call. -/
theorem send_setup_single {s s1 : DMState V} {h : String} {dd : DriverData V}
    {r : Option HostReply}
    (hc : send_command s (HostCmd.SETUP_DRIVERS [(h, dd)]) = some (s1, r)) :
    ∃ r1, setup_one s h dd = some (s1, r1) := by
  simp only [send_command] at hc
  split at hc
  · cases hc
  · next smid res hsd =>
    injection hc with hc
    injection hc with ha _
    subst ha
    simp only [setup_drivers] at hsd
    split at hsd
    · cases hsd
    · next smid2 rmid hone =>
      injection hsd with hsd
      injection hsd with ha2 _
      rw [ha2] at hone
      exact ⟨rmid, hone⟩

/-- The compatibility check cannot raise when the request carries a
parameters mapping and the driver's own parameters mapping is present. -/
theorem is_compatible_isSome {d : DriverStructure V} {dd : DriverData V}
    {ps : List (String × V)} (hps : (ddSetup dd).parameters = some ps)
    (hdp : d.parameters.isSome = true) :
    ∃ b, is_compatible d dd = some b := by
  unfold is_compatible
  by_cases hcls : d.class_name = ddClass dd
  · rw [if_pos hcls, hps]
    obtain ⟨dps, hdps⟩ := Option.isSome_iff_exists.1 hdp
    rw [hdps]
    exact ⟨checkParams dps ps, rfl⟩
  · rw [if_neg hcls]
    exact ⟨false, rfl⟩

/-- The resolver scan cannot raise over a registry whose drivers all carry
their parameters mapping, given a request that carries one. -/
theorem find_compatible_total {dd : DriverData V} {ps : List (String × V)}
    (hps : (ddSetup dd).parameters = some ps) :
    ∀ l : List (String × DriverStructure V),
      (∀ p ∈ l, p.2.parameters.isSome = true) →
      ∃ o, find_compatible_driver dd l = some o := by
  intro l
  induction l with
  | nil => intro _; exact ⟨none, rfl⟩
  | cons a rest ih =>
    intro hall
    obtain ⟨b, hb⟩ := is_compatible_isSome hps (hall a (List.mem_cons_self a rest))
    rcases b with _ | _
    · obtain ⟨o, ho⟩ := ih fun p hp => hall p (List.mem_cons_of_mem a hp)
      exact ⟨o, by simp only [find_compatible_driver, hb]; exact ho⟩
    · exact ⟨some (a.1, a.2), by simp only [find_compatible_driver, hb]⟩

/-- Packs one successful `setup_one` call back into its single-entry
`SETUP_DRIVERS` command. -/
theorem send_setup_single_of {s s1 : DMState V} {h : String} {dd : DriverData V}
    {r : String} (hone : setup_one s h dd = some (s1, r)) :
    send_command s (HostCmd.SETUP_DRIVERS [(h, dd)]) =
      some (s1, some (HostReply.results [(h, r)])) := by
  simp only [send_command, setup_drivers, hone]

/-- The state after provisioning `noParamData` (a registered class whose
SETUP lacks the `"parameters"` key) once from the initial state. -/
def sC4mid : DMState Int :=
  match send_command (initState Int) (HostCmd.SETUP_DRIVERS [("h1", noParamData)]) with
  | some (s, _) => s
  | none => initState Int

/-- Claim C4, counterexample: re-submitting the same spec is not always
idempotent.  The first `SETUP_DRIVERS` for `noParamData` starts a driver and
replies SUCCESS, but re-sending the very same spec raises inside
`is_compatible` (the new driver's class matches and `parameters` is `None`),
so the second call produces no reply and no final state at all — in
particular no state with an unchanged driver count and merged handles. -/
theorem c4_counterexample :
    send_command (initState Int) (HostCmd.SETUP_DRIVERS [("h1", noParamData)]) =
      some (sC4mid, some (HostReply.results [("h1", "SUCCESS")])) ∧
    send_command sC4mid (HostCmd.SETUP_DRIVERS [("h2", noParamData)]) = none :=
  ⟨by decide, by decide⟩

/-- Claim C4 (amended: the spec's SETUP must carry a `"parameters"` mapping
and every live driver's own parameters mapping must be present — both
conditions are forced, since either absent mapping makes a call raise inside
`is_compatible` instead of completing, see the counterexample — and the
starting state satisfies the manager invariant, as every reachable state
does).  Provisioning is then idempotent over repeated requests: both
`SETUP_DRIVERS` calls with spec `dd` complete without raising, the second
call leaves the driver count unchanged, and either a single driver carries
the handles of both requests or the class is unregistered and both calls
were FAILED no-ops. -/
theorem c4_resubmission (s : DMState V)
    (h1 h2 : String) (dd : DriverData V) (ps : List (String × V))
    (hps : (ddSetup dd).parameters = some ps)
    (hnd : (ps.map Prod.fst).Nodup)
    (hinv : manager_inv s)
    (hpars : ∀ p ∈ s.drivers, p.2.parameters.isSome = true) :
    ∃ s1 r1 s2 r2,
      send_command s (HostCmd.SETUP_DRIVERS [(h1, dd)]) = some (s1, r1) ∧
      send_command s1 (HostCmd.SETUP_DRIVERS [(h2, dd)]) = some (s2, r2) ∧
      s2.drivers.length = s1.drivers.length ∧
      ((∃ n d2, lookup s2.drivers n = some d2 ∧ h1 ∈ d2.handlers ∧ h2 ∈ d2.handlers) ∨
        (s2 = s1 ∧ s1 = s)) := by
  obtain ⟨hnames, _, _, _⟩ := hinv
  obtain ⟨o, hfind⟩ := find_compatible_total hps s.drivers hpars
  rcases o with _ | ⟨n, d⟩
  · -- no compatible driver on the first call
    rcases hstart : start_driver (V := V) (s.driver_counter + 1) h1 dd with _ | nd
    · -- unregistered class: both calls are FAILED no-ops
      have hso1 : setup_one s h1 dd = some (s, "FAILED") := by
        unfold setup_one
        rw [hfind]
        dsimp only
        rw [hstart]
      have hso2 : setup_one s h2 dd = some (s, "FAILED") := by
        unfold setup_one
        rw [hfind]
        dsimp only
        rw [start_driver_none_congr hstart (s.driver_counter + 1) h2]
      exact ⟨s, _, s, _, send_setup_single_of hso1, send_setup_single_of hso2, rfl,
        Or.inr ⟨rfl, rfl⟩⟩
    · -- a fresh driver was started; the second call reuses it
      have hndeq := start_driver_spec hstart
      have hnname : nd.name = mkDriverName (s.driver_counter + 1) := by rw [hndeq]
      have hncls : nd.class_name = ddClass dd := by rw [hndeq]
      have hnpar : nd.parameters = (ddSetup dd).parameters := by rw [hndeq]
      have hnhand : nd.handlers = [h1] := by rw [hndeq]
      obtain ⟨⟨s1, ro1⟩, hso1⟩ : ∃ t1, setup_one s h1 dd = some t1 := by
        unfold setup_one
        rw [hfind]
        dsimp only
        rw [hstart]
        exact ⟨_, rfl⟩
      have hone1 := hso1
      unfold setup_one at hso1
      rw [hfind] at hso1
      dsimp only at hso1
      rw [hstart] at hso1
      injection hso1 with hso1
      injection hso1 with hA hB
      obtain ⟨hf_name, hf_cls, hf_par, hf_hand, _⟩ :=
        add_driver_variables_fields (ddVariables dd) nd
      have hfresh : lookup s.drivers nd.name = none := by
        rw [hnname]
        exact lookup_none_of_not_mem (fresh_name_not_mem hnames)
      have happ : setKey s.drivers nd.name (add_driver_variables nd (ddVariables dd)).1 =
          s.drivers ++ [(nd.name, (add_driver_variables nd (ddVariables dd)).1)] :=
        setKey_of_lookup_none hfresh _
      have hclsT1 : (add_driver_variables nd (ddVariables dd)).1.class_name = ddClass dd := by
        rw [hf_cls, hncls]
      have hparT1 : (add_driver_variables nd (ddVariables dd)).1.parameters = some ps := by
        rw [hf_par, hnpar, hps]
      have hcompT1 : is_compatible (add_driver_variables nd (ddVariables dd)).1 dd
          = some true := by
        unfold is_compatible
        rw [if_pos hclsT1, hps]
        dsimp only
        rw [hparT1]
        dsimp only
        rw [checkParams_self hnd]
      have hfind2 : find_compatible_driver dd s1.drivers =
          some (some (nd.name, (add_driver_variables nd (ddVariables dd)).1)) := by
        rw [← hA]
        show find_compatible_driver dd
            (setKey s.drivers nd.name (add_driver_variables nd (ddVariables dd)).1) = _
        rw [happ, find_append_all_false (find_all_false hfind)]
        simp only [find_compatible_driver, hcompT1]
      have hlk1 : lookup s1.drivers nd.name =
          some (add_driver_variables nd (ddVariables dd)).1 := by
        rw [← hA]
        exact lookup_setKey_self _ _ _
      obtain ⟨⟨s2, ro2⟩, hso2⟩ : ∃ t2, setup_one s1 h2 dd = some t2 := by
        unfold setup_one
        rw [hfind2]
        exact ⟨_, rfl⟩
      have hone2 := hso2
      unfold setup_one at hso2
      rw [hfind2] at hso2
      injection hso2 with hso2
      injection hso2 with hA2 hB2
      obtain ⟨_, _, _, hf2_hand, _⟩ :=
        add_driver_variables_fields (ddVariables dd)
          (add_handle (add_driver_variables nd (ddVariables dd)).1 h2)
      refine ⟨s1, some (HostReply.results [(h1, ro1)]),
        s2, some (HostReply.results [(h2, ro2)]),
        send_setup_single_of hone1, send_setup_single_of hone2, ?_, ?_⟩
      · rw [← hA2]
        exact length_setKey_of_isSome (by rw [hlk1]; rfl) _
      · refine Or.inl ⟨nd.name,
          (add_driver_variables
            (add_handle (add_driver_variables nd (ddVariables dd)).1 h2)
            (ddVariables dd)).1, ?_, ?_, ?_⟩
        · rw [← hA2]
          exact lookup_setKey_self _ _ _
        · rw [hf2_hand]
          show h1 ∈ (add_driver_variables nd (ddVariables dd)).1.handlers ++ [h2]
          refine List.mem_append.2 (Or.inl ?_)
          rw [hf_hand, hnhand]
          exact List.mem_singleton.2 rfl
        · rw [hf2_hand]
          show h2 ∈ (add_driver_variables nd (ddVariables dd)).1.handlers ++ [h2]
          exact List.mem_append.2 (Or.inr (List.mem_singleton.2 rfl))
  · -- the first call already reused a compatible driver
    obtain ⟨⟨s1, ro1⟩, hso1⟩ : ∃ t1, setup_one s h1 dd = some t1 := by
      unfold setup_one
      rw [hfind]
      exact ⟨_, rfl⟩
    have hone1 := hso1
    unfold setup_one at hso1
    rw [hfind] at hso1
    injection hso1 with hso1
    injection hso1 with hA hB
    have hndk : (s.drivers.map Prod.fst).Nodup := names_nodup hnames
    have hlk : lookup s.drivers n = some d :=
      lookup_of_mem_nodup hndk (find_compatible_mem hfind)
    obtain ⟨_, hf_cls, hf_par, hf_hand, _⟩ :=
      add_driver_variables_fields (ddVariables dd) (add_handle d h1)
    have hT1cls : (add_driver_variables (add_handle d h1) (ddVariables dd)).1.class_name
        = d.class_name := hf_cls
    have hT1par : (add_driver_variables (add_handle d h1) (ddVariables dd)).1.parameters
        = d.parameters := hf_par
    obtain ⟨d', hfind2'⟩ := (find_congr (setKey_forall₂ hlk hT1cls hT1par)).2 n d hfind
    have hmapfst : (setKey s.drivers n
        (add_driver_variables (add_handle d h1) (ddVariables dd)).1).map Prod.fst =
        s.drivers.map Prod.fst := map_fst_setKey_of_isSome (by rw [hlk]; rfl) _
    have hlkd' : lookup (setKey s.drivers n
        (add_driver_variables (add_handle d h1) (ddVariables dd)).1) n = some d' :=
      lookup_of_mem_nodup (by rw [hmapfst]; exact hndk) (find_compatible_mem hfind2')
    have hlkT1 := lookup_setKey_self s.drivers n
      (add_driver_variables (add_handle d h1) (ddVariables dd)).1
    rw [hlkd'] at hlkT1
    injection hlkT1 with hd'T1
    subst hd'T1
    have hfind2 : find_compatible_driver dd s1.drivers =
        some (some (n, (add_driver_variables (add_handle d h1) (ddVariables dd)).1)) := by
      rw [← hA]
      exact hfind2'
    have hlk1 : lookup s1.drivers n =
        some (add_driver_variables (add_handle d h1) (ddVariables dd)).1 := by
      rw [← hA]
      exact lookup_setKey_self _ _ _
    obtain ⟨⟨s2, ro2⟩, hso2⟩ : ∃ t2, setup_one s1 h2 dd = some t2 := by
      unfold setup_one
      rw [hfind2]
      exact ⟨_, rfl⟩
    have hone2 := hso2
    unfold setup_one at hso2
    rw [hfind2] at hso2
    injection hso2 with hso2
    injection hso2 with hA2 hB2
    obtain ⟨_, _, _, hf2_hand, _⟩ :=
      add_driver_variables_fields (ddVariables dd)
        (add_handle (add_driver_variables (add_handle d h1) (ddVariables dd)).1 h2)
    refine ⟨s1, some (HostReply.results [(h1, ro1)]),
      s2, some (HostReply.results [(h2, ro2)]),
      send_setup_single_of hone1, send_setup_single_of hone2, ?_, ?_⟩
    · rw [← hA2]
      exact length_setKey_of_isSome (by rw [hlk1]; rfl) _
    · refine Or.inl ⟨n,
        (add_driver_variables
          (add_handle (add_driver_variables (add_handle d h1) (ddVariables dd)).1 h2)
          (ddVariables dd)).1, ?_, ?_, ?_⟩
      · rw [← hA2]
        exact lookup_setKey_self _ _ _
      · rw [hf2_hand]
        show h1 ∈ (add_driver_variables (add_handle d h1) (ddVariables dd)).1.handlers ++ [h2]
        refine List.mem_append.2 (Or.inl ?_)
        rw [hf_hand]
        show h1 ∈ d.handlers ++ [h1]
        exact List.mem_append.2 (Or.inr (List.mem_singleton.2 rfl))
      · rw [hf2_hand]
        show h2 ∈ (add_driver_variables (add_handle d h1) (ddVariables dd)).1.handlers ++ [h2]
        exact List.mem_append.2 (Or.inr (List.mem_singleton.2 rfl))

/-- Witness for the amended C4 theorem: from the initial state, sending
`udpData` twice completes both times, and one driver carries both
handles. -/
theorem c4_resubmission_witness :
    ∃ s1 r1 s2 r2,
      send_command (initState Int) (HostCmd.SETUP_DRIVERS [("h1", udpData)]) =
        some (s1, r1) ∧
      send_command s1 (HostCmd.SETUP_DRIVERS [("h2", udpData)]) = some (s2, r2) ∧
      s2.drivers.length = s1.drivers.length ∧
      ((∃ n d2, lookup s2.drivers n = some d2 ∧ "h1" ∈ d2.handlers ∧ "h2" ∈ d2.handlers) ∨
        (s2 = s1 ∧ s1 = initState Int)) :=
  c4_resubmission (initState Int) "h1" "h2" udpData [("ip", (1 : Int))] rfl (by decide)
    (reachable_inv Reachable.init) (fun p hp => by cases hp)

/-! ### Claim C9: the per-second stats snapshot -/

/-- Stats gating in `run_once`: rebuilt from the registry sizes exactly
when a wall-second has elapsed, untouched otherwise. -/
theorem run_once_stats (s : DMState V) (inbox : List (String × List (WorkerMsg V)))
    (cap now : Nat) :
    (now - s.last_status_record ≥ 1 →
      (run_once s inbox cap now).1.stats_updates =
        [("DRIVER_COUNT", s.drivers.length), ("VARIABLE_COUNT", s.handles.length)] ∧
      (run_once s inbox cap now).1.last_status_record = now) ∧
    (¬ now - s.last_status_record ≥ 1 →
      (run_once s inbox cap now).1.stats_updates = s.stats_updates ∧
      (run_once s inbox cap now).1.last_status_record = s.last_status_record) := by
  obtain ⟨hm, _, _, hns⟩ := drain_all_ok inbox cap s.drivers s
  obtain ⟨q1, q2, q3, q4, q5, q6, q7, q8⟩ := hm
  have hlen : (drain_all inbox cap s.drivers s).1.length = s.drivers.length := by
    have hl := congrArg List.length hns
    simpa using hl
  constructor
  · intro hgate
    have hcond : now - (drain_all inbox cap s.drivers s).2.last_status_record ≥ 1 := by
      rw [q7]; exact hgate
    simp only [run_once]
    rw [if_pos hcond]
    exact ⟨by rw [hlen, q3], rfl⟩
  · intro hgate
    have hcond : ¬ now - (drain_all inbox cap s.drivers s).2.last_status_record ≥ 1 := by
      rw [q7]; exact hgate
    simp only [run_once]
    rw [if_neg hcond]
    exact ⟨q8, q7⟩

/-- When the stats map is non-empty, the emission block sends it as a
`STATS` frame and clears it. -/
theorem emit_frames_stats (t : DMState V) (hne : t.stats_updates ≠ []) :
    OutFrame.STATS t.stats_updates ∈ (emit_frames t).2 ∧
      (emit_frames t).1.stats_updates = [] := by
  have hne' : ¬ t.stats_updates.isEmpty = true := by
    simpa [List.isEmpty_iff] using hne
  unfold emit_frames
  dsimp only
  split <;> split <;> split <;> split <;> simp [hne']

/-- C9 (counterexample): at clock second 1 from the initial state, an idle
cycle rebuilds the stats map, yet emits no frame at all — `run_once`'s
return value omits `stats_updates`, so `run_forever` skips the emission
block on an otherwise idle cycle. -/
theorem c9_counterexample :
    cycle (initState Int) [] [] 1 = some (sC9post, []) ∧
      sC9post.stats_updates = [("DRIVER_COUNT", 0), ("VARIABLE_COUNT", 0)] :=
  ⟨by decide, by decide⟩

/-- C9 (amended): once per wall-second of uptime the stats map
`&#x7b;DRIVER_COUNT, VARIABLE_COUNT&#x7d;` is rebuilt into
`stats_updates` (and not rebuilt within the same second); the `STATS`
frame carrying it is emitted at the end of a cycle only if the reconciler
also reported status/info/var-info/value updates in that cycle — on an
otherwise idle cycle no frame is emitted and the map stays pending. -/
theorem c9_stats_snapshotter (s : DMState V)
    (inbox : List (String × List (WorkerMsg V))) (now : Nat) (s' : DMState V)
    (outs : List (OutFrame V)) (hrun : s.running = true)
    (hc : cycle s [] inbox now = some (s', outs)) :
    ((now - s.last_status_record ≥ 1 →
      (run_once s inbox 10 now).1.stats_updates =
        [("DRIVER_COUNT", s.drivers.length), ("VARIABLE_COUNT", s.handles.length)]) ∧
     (¬ now - s.last_status_record ≥ 1 →
      (run_once s inbox 10 now).1.stats_updates = s.stats_updates)) ∧
    ((run_once s inbox 10 now).2 = true →
      (run_once s inbox 10 now).1.stats_updates ≠ [] →
      OutFrame.STATS (run_once s inbox 10 now).1.stats_updates ∈ outs ∧
        s'.stats_updates = []) ∧
    ((run_once s inbox 10 now).2 = false →
      outs = [] ∧ s' = (run_once s inbox 10 now).1) := by
  obtain ⟨hg1, hg2⟩ := run_once_stats s inbox 10 now
  have hpf : process_frames s (List.take 10 ([] : List (HostCmd V))) =
      some (s, ([] : List (OutFrame V))) := rfl
  rw [cycle, hpf] at hc
  dsimp only at hc
  rw [if_pos hrun] at hc
  refine ⟨⟨fun h => (hg1 h).1, fun h => (hg2 h).1⟩, ?_, ?_⟩
  · intro hflag hne
    rw [if_pos hflag] at hc
    injection hc with hc
    injection hc with h1 h2
    obtain ⟨hm1, hm2⟩ := emit_frames_stats (run_once s inbox 10 now).1 hne
    subst h1
    refine ⟨?_, hm2⟩
    rw [← h2]
    simpa using hm1
  · intro hflag
    rw [if_neg (by simp [hflag])] at hc
    injection hc with hc
    injection hc with h1 h2
    exact ⟨h2.symm, h1.symm⟩

/-- C9 (witness): `c9_stats_snapshotter` on the idle cycle at second 5
from the provisioned state `sEx1`. -/
theorem c9_stats_snapshotter_witness :
    ((5 - sEx1.last_status_record ≥ 1 →
      (run_once sEx1 [] 10 5).1.stats_updates =
        [("DRIVER_COUNT", sEx1.drivers.length), ("VARIABLE_COUNT", sEx1.handles.length)]) ∧
     (¬ 5 - sEx1.last_status_record ≥ 1 →
      (run_once sEx1 [] 10 5).1.stats_updates = sEx1.stats_updates)) ∧
    ((run_once sEx1 [] 10 5).2 = true →
      (run_once sEx1 [] 10 5).1.stats_updates ≠ [] →
      OutFrame.STATS (run_once sEx1 [] 10 5).1.stats_updates ∈ sC9wouts ∧
        sC9w.stats_updates = []) ∧
    ((run_once sEx1 [] 10 5).2 = false →
      sC9wouts = [] ∧ sC9w = (run_once sEx1 [] 10 5).1) :=
  c9_stats_snapshotter sEx1 [] 5 sC9w sC9wouts (by decide) (by decide)

/-- C8 (witness): the first part of `c8_worker_update` applied to the
concrete driver `dEx1`, whose variable `x` holds no value yet. -/
theorem c8_worker_update_witness :
    ∃ (d' : DriverStructure Int) (s' : DMState Int),
      apply_update_entry dEx1 (initState Int) "x" (5 : Int) = (d', s') ∧
      (∃ vs', lookup d'.vars "x" = some vs' ∧ vs'.value = some 5 ∧
        vs'.read_count = 0 + 1) ∧
      (∀ h ∈ (["vh1"] : List String), lookup s'.value_updates h = some 5) ∧
      ∀ h, h ∉ (["vh1"] : List String) →
        lookup s'.value_updates h = lookup (initState Int).value_updates h :=
  ((c8_worker_update (V := Int)).1 dEx1 (initState Int) "x" 5
    { handlers := ["vh1"], parameters := vdX, value := none, info := ""
      write_count := 0, read_count := 0 } (by decide)).2 (by decide)

end DriverMgr
